import Mathlib

set_option maxHeartbeats 1000000

namespace StageLinqProof

/-- Connection lifecycle status, embedding the ConnectionStatus enum of
StageLinqDevices.ts. -/
inductive ConnectionStatus where
  | CONNECTING
  | CONNECTED
  | FAILED
  deriving DecidableEq

/-- Discovery announcement fields used by StageLinqDevices (the ConnectionInfo
type): address, port, source label, software name and the opaque token bytes. -/
structure ConnectionInfo where
  address : List Char
  port : Nat
  source : List Char
  softwareName : List Char
  token : List Nat
  deriving DecidableEq

/-- Caller-supplied options consumed by StageLinqDevices (StageLinqOptions):
maxRetries, downloadDbSources, and the process's own source label actingAs. -/
structure StageLinqOptions where
  maxRetries : Nat
  downloadDbSources : Bool
  actingAsSource : List Char

/-- Outcome of the external collaborator calls made during one iteration of the
retry loop: whether networkDevice.connect resolves, whether
connectToService(FileTransfer) resolves, and whether
databases.downloadSourcesFromDevice resolves. -/
structure AttemptSpec where
  connectOk : Bool
  serviceOk : Bool
  dbOk : Bool
  deriving DecidableEq

/-- JS Map.get on an insertion-ordered association list. -/
def mapGet {α β : Type} [DecidableEq α] : List (α × β) → α → Option β
  | [], _ => none
  | p :: rest, k => if p.1 = k then some p.2 else mapGet rest k

/-- JS Map.set on an insertion-ordered association list: replace in place if the
key is present, otherwise append. -/
def mapSet {α β : Type} [DecidableEq α] : List (α × β) → α → β → List (α × β)
  | [], k, v => [(k, v)]
  | p :: rest, k, v => if p.1 = k then (k, v) :: rest else p :: mapSet rest k v

/-- Two lowercase hex characters of one byte, as produced by
Buffer.toString with hex encoding (bytes are masked to 8 bits). -/
def hexPair (b : Nat) : List Char :=
  [Nat.digitChar (b % 256 / 16), Nat.digitChar (b % 16)]

/-- Hex encoding of a token byte sequence (Buffer.from(token).toString hex). -/
def tokenHex (token : List Nat) : List Char :=
  (token.map hexPair).flatten

/-- Embedding of sourceId: run the regex with groups of 8, 4, 4, 4 and 12 word
characters over the hex string and join the groups with dashes.  The hex string
contains only word characters, so the (unanchored) regex matches exactly when
the string has at least 32 characters, and then it matches at index 0 taking
the first 32 characters.  When it does not match, exec yields null and the
splice call throws; this is modelled as none. -/
def sourceId (token : List Nat) : Option (List Char) :=
  let hex := tokenHex token
  if hex.length < 32 then none
  else
    let h := hex.take 32
    some (h.take 8 ++ '-' :: ((h.drop 8).take 4 ++ '-' :: ((h.drop 12).take 4
      ++ '-' :: ((h.drop 16).take 4 ++ '-' :: (h.drop 20).take 12))))

/-- Fuel-bounded most-significant-first decimal digit list of a number. -/
def portDigits : Nat → Nat → List Nat
  | 0, _ => []
  | fuel + 1, n => if n < 10 then [n] else portDigits fuel (n / 10) ++ [n % 10]

/-- Decimal rendering of a port number, as JS template interpolation does. -/
def portChars (n : Nat) : List Char :=
  (portDigits (n + 1) n).map Nat.digitChar

/-- Embedding of deviceId: the template string
address:port:[source/softwareName]. -/
def deviceId (ci : ConnectionInfo) : List Char :=
  ci.address ++ ':' :: (portChars ci.port
    ++ ':' :: '[' :: (ci.source ++ '/' :: (ci.softwareName ++ [']'])))

/-- Case-insensitive anchored test for a pattern at the start of a string,
embedding the regexes with a leading anchor and the i flag.  The pattern is
passed already lowercased. -/
def startsWithCI (pat s : List Char) : Bool :=
  (s.take pat.length).map Char.toLower = pat

/-- Embedding of isIgnored: drop self-announcements and the denylisted
software names. -/
def isIgnored (cfg : StageLinqOptions) (ci : ConnectionInfo) : Bool :=
  ci.source = cfg.actingAsSource
  || ci.softwareName = "OfflineAnalyzer".toList
  || startsWithCI "soundswitch".toList ci.softwareName
  || startsWithCI "resolume".toList ci.softwareName
  || ci.softwareName = "JM08".toList
  || ci.softwareName = "SSS0".toList

/-- A live device session: the announcement it was opened for and the attempt
number on which the transport connected (each attempt constructs a fresh
NetworkDevice). -/
abbrev Session := ConnectionInfo × Nat

/-- Registry key written by setupFileTransferService: net:// followed by the
token-derived id. -/
def netKey (sid : List Char) : List Char :=
  "net://".toList ++ sid

/-- Observable actions of the orchestrator: entering the retry-loop body for an
attempt (a transport session is constructed and connected there), the public
connected and ready events, running setupStateMap for a device, and the
file-transfer interactions of downloadFile. -/
inductive Ev where
  | attemptStart (ci : ConnectionInfo) (attempt : Nat)
  | connected (ci : ConnectionInfo)
  | stateMapSetup (ci : ConnectionInfo)
  | ready
  | ftWait (key : List Char)
  | ftGetFile (key : List Char) (path : List Char)
  deriving DecidableEq

/-- Result of a whole connection attempt: success, or the terminal error thrown
after the retry loop exhausts. -/
inductive ConnResult where
  | ok
  | connectionFailed
  deriving DecidableEq

/-- Orchestrator state: the Device Registry (devices), the Connection State
Tracker (discoveryStatus), the Deferred State-Sync queue (stateMapCallback),
the connection attempts currently in flight (pending, since handleDevice does
not await connectToDevice), and whether the barrier interval is still armed. -/
structure OrchState where
  devices : List (List Char × Session)
  discoveryStatus : List (List Char × ConnectionStatus)
  stateMapCallback : List (ConnectionInfo × Nat)
  pending : List (ConnectionInfo × (Nat → AttemptSpec))
  timerActive : Bool

/-- State right after the constructor ran: everything empty, the
waitForAllDevices interval armed. -/
def initState : OrchState :=
  { devices := [], discoveryStatus := [], stateMapCallback := [],
    pending := [], timerActive := true }

/-- Whether one iteration of the retry loop succeeds: the transport connect,
the sourceId computation, the file-transfer service open, and (when database
download is enabled) the database download must all succeed. -/
def attemptOk (cfg : StageLinqOptions) (ci : ConnectionInfo) (a : AttemptSpec) : Bool :=
  a.connectOk && (sourceId ci.token).isSome && a.serviceOk
    && (!cfg.downloadDbSources || a.dbOk)

/-- One iteration of the retry-loop body of connectToDevice, attempt number k.
On full success it registers the session under net://sourceId, pushes the
deferred state-map pair, marks the key CONNECTED and emits connected.  Any
failure inside the body is caught by the loop; note that a database-download
failure happens after the registry write, which is kept. -/
def tryAttempt (cfg : StageLinqOptions) (oracle : Nat → AttemptSpec) (ci : ConnectionInfo)
    (k : Nat) (s : OrchState) : OrchState × List Ev × Bool :=
  let a := oracle k
  if a.connectOk then
    match sourceId ci.token with
    | none => (s, [Ev.attemptStart ci k], false)
    | some sid =>
      if a.serviceOk then
        let s1 := { s with devices := mapSet s.devices (netKey sid) (ci, k) }
        if cfg.downloadDbSources && !a.dbOk then
          (s1, [Ev.attemptStart ci k], false)
        else
          ({ s1 with
              stateMapCallback := s1.stateMapCallback ++ [(ci, k)],
              discoveryStatus :=
                mapSet s1.discoveryStatus (deviceId ci) ConnectionStatus.CONNECTED },
           [Ev.attemptStart ci k, Ev.connected ci], true)
      else (s, [Ev.attemptStart ci k], false)
  else (s, [Ev.attemptStart ci k], false)

/-- The while loop of connectToDevice: attempt numbers count up from k while
fuel iterations remain (fuel is maxRetries minus the current attempt number);
when fuel runs out the key is marked FAILED and the terminal error is thrown. -/
def attemptLoop (cfg : StageLinqOptions) (oracle : Nat → AttemptSpec) (ci : ConnectionInfo) :
    Nat → Nat → OrchState → OrchState × List Ev × ConnResult
  | 0, _, s =>
    ({ s with discoveryStatus :=
        mapSet s.discoveryStatus (deviceId ci) ConnectionStatus.FAILED },
     [], ConnResult.connectionFailed)
  | fuel + 1, k, s =>
    let t := tryAttempt cfg oracle ci k s
    if t.2.2 then (t.1, t.2.1, ConnResult.ok)
    else
      let r := attemptLoop cfg oracle ci fuel (k + 1) t.1
      (r.1, t.2.1 ++ r.2.1, r.2.2)

/-- Embedding of connectToDevice: mark the key CONNECTING, then run the retry
loop with attempt starting at 1 while attempt is less than maxRetries. -/
def connectToDevice (cfg : StageLinqOptions) (oracle : Nat → AttemptSpec)
    (ci : ConnectionInfo) (s : OrchState) : OrchState × List Ev × ConnResult :=
  attemptLoop cfg oracle ci (cfg.maxRetries - 1) 1
    { s with discoveryStatus :=
        mapSet s.discoveryStatus (deviceId ci) ConnectionStatus.CONNECTING }

/-- Embedding of handleDevice up to its first suspension point: a discovery
announcement whose key is already tracked (CONNECTING, CONNECTED or FAILED) or
ignored is dropped; otherwise connectToDevice starts, which synchronously marks
the key CONNECTING and then suspends on the first transport connect, leaving a
pending in-flight attempt. -/
def handleDevice (cfg : StageLinqOptions) (ci : ConnectionInfo) (oracle : Nat → AttemptSpec)
    (s : OrchState) : OrchState × List Ev :=
  if (mapGet s.discoveryStatus (deviceId ci)).isSome || isIgnored cfg ci then (s, [])
  else
    ({ s with
        discoveryStatus :=
          mapSet s.discoveryStatus (deviceId ci) ConnectionStatus.CONNECTING,
        pending := s.pending ++ [(ci, oracle)] }, [])

/-- Remove the element at an index from a list (the in-flight attempt that the
scheduler resumes and runs to completion). -/
def removeNth {α : Type} : List α → Nat → List α
  | [], _ => []
  | _ :: xs, 0 => xs
  | x :: xs, n + 1 => x :: removeNth xs n

/-- The scheduler resumes the i-th in-flight connection attempt and runs its
retry loop to completion (the CONNECTING mark was already placed when
handleDevice started the attempt). -/
def resumeAttempt (cfg : StageLinqOptions) (s : OrchState) (i : Nat) : OrchState × List Ev :=
  match s.pending[i]? with
  | none => (s, [])
  | some p =>
    let s0 := { s with pending := removeNth s.pending i }
    let r := attemptLoop cfg p.2 p.1 (cfg.maxRetries - 1) 1 s0
    (r.1, r.2.1)

/-- One tick of the waitForAllDevices interval: if the interval is still armed,
snapshot the tracker; when at least one status is recorded and none is
CONNECTING, clear the interval, run setupStateMap for every queued pair, and
emit ready; otherwise do nothing. -/
def waitForAllDevices (s : OrchState) : OrchState × List Ev :=
  if s.timerActive then
    if s.discoveryStatus ≠ [] ∧ ∀ p ∈ s.discoveryStatus, p.2 ≠ ConnectionStatus.CONNECTING then
      ({ s with timerActive := false },
       (s.stateMapCallback.map fun p => Ev.stateMapSetup p.1) ++ [Ev.ready])
    else (s, [])
  else (s, [])

/-- Inputs of the orchestrator transition system: a discovery announcement
(bundled with the oracle describing how its attempts will fare), the scheduler
resuming an in-flight attempt, and a barrier interval tick. -/
inductive Input where
  | announce (ci : ConnectionInfo) (oracle : Nat → AttemptSpec)
  | resume (i : Nat)
  | tick

/-- One transition of the orchestrator. -/
def step (cfg : StageLinqOptions) (s : OrchState) : Input → OrchState × List Ev
  | Input.announce ci oracle => handleDevice cfg ci oracle s
  | Input.resume i => resumeAttempt cfg s i
  | Input.tick => waitForAllDevices s

/-- Run a sequence of inputs, accumulating the emitted events. -/
def run (cfg : StageLinqOptions) : OrchState → List Input → OrchState × List Ev
  | s, [] => (s, [])
  | s, i :: rest =>
    let r := step cfg s i
    let r2 := run cfg r.1 rest
    (r2.1, r.2 ++ r2.2)

/-- Result of downloadFile: either the TypeError raised by dereferencing the
missing registry entry, or the fetched bytes. -/
inductive DownloadResult where
  | derefError
  | file (bytes : List Nat)
  deriving DecidableEq

/-- Embedding of downloadFile: look the device up in the registry; when the key
is absent the very next property access throws (modelled as derefError, with no
file-transfer interaction); otherwise wait for the file-transfer service and
fetch the file. -/
def downloadFile (s : OrchState) (getFile : List Char → List Nat)
    (devKey path : List Char) : DownloadResult × List Ev :=
  match mapGet s.devices devKey with
  | none => (DownloadResult.derefError, [])
  | some _ =>
    (DownloadResult.file (getFile path), [Ev.ftWait devKey, Ev.ftGetFile devKey path])

/-- Predicate for the ready event. -/
def isReadyEv : Ev → Bool
  | Ev.ready => true
  | _ => false

/-- Predicate for connected events. -/
def isConnectedEv : Ev → Bool
  | Ev.connected _ => true
  | _ => false

/-- Predicate for retry-loop body entries. -/
def isAttemptStartEv : Ev → Bool
  | Ev.attemptStart _ _ => true
  | _ => false

/-- Number of ready events in an event list. -/
def countReady (l : List Ev) : Nat := l.countP isReadyEv

/-- Reflexive order on tracker observations: an absent entry may become
anything, CONNECTING may become CONNECTED or FAILED, and the terminal states
never change. -/
def statusLe : Option ConnectionStatus → Option ConnectionStatus → Bool
  | none, _ => true
  | some ConnectionStatus.CONNECTING, some _ => true
  | some ConnectionStatus.CONNECTED, some ConnectionStatus.CONNECTED => true
  | some ConnectionStatus.FAILED, some ConnectionStatus.FAILED => true
  | _, _ => false

/-- Invariant of reachable orchestrator states: every in-flight attempt's key
is currently CONNECTING in the tracker, and no two in-flight attempts share a
key. -/
def Inv (s : OrchState) : Prop :=
  (∀ p ∈ s.pending, mapGet s.discoveryStatus (deviceId p.1) = some ConnectionStatus.CONNECTING)
  ∧ s.pending.Pairwise fun p q => deviceId p.1 ≠ deviceId q.1

/-- Value of a most-significant-first decimal digit list. -/
def digitsVal (l : List Nat) : Nat := l.foldl (fun a d => 10 * a + d) 0

/-- A sixteen-byte token used by concrete instances. -/
def tok16 : List Nat := List.replicate 16 171

/-- A seventeen-byte token used by concrete instances. -/
def tok17 : List Nat := List.replicate 17 171

/-- The token-derived id of tok16. -/
def idA : List Char := "abababab-abab-abab-abab-abababababab".toList

/-- A concrete discovery announcement. -/
def ciA : ConnectionInfo :=
  { address := "10.0.0.1".toList, port := 50000, source := "player1".toList,
    softwareName := "JP13".toList, token := tok16 }

/-- A concrete announcement whose token is too short for sourceId. -/
def ciShortTok : ConnectionInfo :=
  { address := "10.0.0.2".toList, port := 50000, source := "player2".toList,
    softwareName := "JP13".toList, token := [1, 2] }

/-- A concrete announcement whose source contains a slash. -/
def ciX : ConnectionInfo :=
  { address := "h".toList, port := 1, source := "a/b".toList,
    softwareName := "c".toList, token := [] }

/-- A concrete announcement colliding with ciX under deviceId. -/
def ciY : ConnectionInfo :=
  { address := "h".toList, port := 1, source := "a".toList,
    softwareName := "b/c".toList, token := [] }

/-- Concrete options: three retries, database download enabled. -/
def cfgA : StageLinqOptions :=
  { maxRetries := 3, downloadDbSources := true, actingAsSource := "me".toList }

/-- Concrete options with a single retry budget. -/
def cfgOne : StageLinqOptions :=
  { maxRetries := 1, downloadDbSources := false, actingAsSource := "me".toList }

/-- Oracle: every collaborator call succeeds. -/
def oracleOk : Nat → AttemptSpec :=
  fun _ => { connectOk := true, serviceOk := true, dbOk := true }

/-- Oracle: the transport connect fails on every attempt. -/
def oracleNoConn : Nat → AttemptSpec :=
  fun _ => { connectOk := false, serviceOk := true, dbOk := true }

/-- Oracle: everything succeeds except the database download, which always
fails. -/
def oracleDbFail : Nat → AttemptSpec :=
  fun _ => { connectOk := true, serviceOk := true, dbOk := false }

/-- Oracle: the first attempt's transport connect fails, later attempts fully
succeed. -/
def oracleSecond : Nat → AttemptSpec :=
  fun k => if k = 1 then { connectOk := false, serviceOk := true, dbOk := true }
    else { connectOk := true, serviceOk := true, dbOk := true }

/-- A concrete state whose tracker holds one settled entry and whose deferred
queue holds one pair, with the barrier still armed. -/
def sWitness : OrchState :=
  { devices := [], discoveryStatus := [(deviceId ciA, ConnectionStatus.CONNECTED)],
    stateMapCallback := [(ciA, 1)], pending := [], timerActive := true }

/-- A concrete trace: one announcement whose attempt then completes. -/
def inputsW : List Input := [Input.announce ciA oracleOk, Input.resume 0]

/-- A trivial file-content oracle. -/
def gZero : List Char → List Nat := fun _ => []

/-- A concrete file path. -/
def pathX : List Char := "Engine Library/Music/a.mp3".toList

/-- Setting a key and reading it back yields the written value. -/
theorem mapGet_mapSet_self {α β : Type} [DecidableEq α] (m : List (α × β)) (k : α) (v : β) :
    mapGet (mapSet m k v) k = some v := by
  induction m with
  | nil => simp [mapGet, mapSet]
  | cons p rest ih =>
    by_cases h : p.1 = k <;> simp [mapGet, mapSet, h, ih]

/-- Setting a key leaves every other key unchanged. -/
theorem mapGet_mapSet_ne {α β : Type} [DecidableEq α] (m : List (α × β)) {k k' : α} (v : β)
    (h : k' ≠ k) : mapGet (mapSet m k v) k' = mapGet m k' := by
  have h' : ¬(k = k') := fun hh => h hh.symm
  induction m with
  | nil => simp [mapGet, mapSet, h, h']
  | cons p rest ih =>
    by_cases hp : p.1 = k
    · simp [mapGet, mapSet, hp, h, h']
    · by_cases hp' : p.1 = k' <;> simp [mapGet, mapSet, hp, hp', h, h', ih]

/-- Every entry of a map after a set is either the written pair's key or an
original entry. -/
theorem mem_mapSet {α β : Type} [DecidableEq α] {m : List (α × β)} {k : α} {v : β}
    {q : α × β} (h : q ∈ mapSet m k v) : q.1 = k ∨ q ∈ m := by
  induction m with
  | nil => simp [mapSet] at h; simp [h]
  | cons p rest ih =>
    by_cases hp : p.1 = k
    · simp [mapSet, hp] at h
      rcases h with h | h
      · exact Or.inl (by simp [h])
      · exact Or.inr (List.mem_cons_of_mem _ h)
    · simp [mapSet, hp] at h
      rcases h with h | h
      · exact Or.inr (by simp [h])
      · rcases ih h with h' | h'
        · exact Or.inl h'
        · exact Or.inr (List.mem_cons_of_mem _ h')

/-- A key whose value no entry carries is absent. -/
theorem mapGet_eq_none {α β : Type} [DecidableEq α] {m : List (α × β)} {k : α}
    (h : ∀ p ∈ m, p.1 ≠ k) : mapGet m k = none := by
  induction m with
  | nil => simp [mapGet]
  | cons p rest ih =>
    simp [mapGet, h p (List.mem_cons_self _ _)]
    exact ih fun q hq => h q (List.mem_cons_of_mem _ hq)

/-- Removing an index keeps only original elements. -/
theorem mem_removeNth {α : Type} : ∀ {l : List α} {n : Nat} {a : α},
    a ∈ removeNth l n → a ∈ l := by
  intro l
  induction l with
  | nil => intro n a h; simp [removeNth] at h
  | cons x xs ih =>
    intro n a h
    cases n with
    | zero => exact List.mem_cons_of_mem _ h
    | succ n =>
      simp [removeNth] at h
      rcases h with h | h
      · simp [h]
      · exact List.mem_cons_of_mem _ (ih h)

/-- Removing an index preserves pairwise relations. -/
theorem pairwise_removeNth {α : Type} {R : α → α → Prop} :
    ∀ {l : List α} {n : Nat}, l.Pairwise R → (removeNth l n).Pairwise R := by
  intro l
  induction l with
  | nil => intro n h; simp [removeNth]
  | cons x xs ih =>
    intro n h
    cases n with
    | zero => exact (List.pairwise_cons.mp h).2
    | succ n =>
      rcases List.pairwise_cons.mp h with ⟨hx, hxs⟩
      exact List.pairwise_cons.mpr ⟨fun a ha => hx a (mem_removeNth ha), ih hxs⟩

/-- An element removed by index is related to every survivor, in one direction
or the other, whenever the original list was pairwise related. -/
theorem pairwise_rel_removeNth {α : Type} {R : α → α → Prop} :
    ∀ {l : List α} {n : Nat} {p : α}, l.Pairwise R → l[n]? = some p →
      ∀ q ∈ removeNth l n, R p q ∨ R q p := by
  intro l
  induction l with
  | nil => intro n p _ h; simp at h
  | cons x xs ih =>
    intro n p hpw hget q hq
    rcases List.pairwise_cons.mp hpw with ⟨hx, hxs⟩
    cases n with
    | zero =>
      have hxp : x = p := by simpa using hget
      subst hxp
      exact Or.inl (hx q hq)
    | succ n =>
      have hget' : xs[n]? = some p := by simpa using hget
      simp [removeNth] at hq
      rcases hq with hq | hq
      · subst hq
        exact Or.inr (hx p (List.getElem?_mem hget'))
      · exact ih hxs hget' q hq

/-- Success flag of one retry-loop iteration. -/
theorem tryAttempt_flag (cfg : StageLinqOptions) (oracle : Nat → AttemptSpec)
    (ci : ConnectionInfo) (k : Nat) (s : OrchState) :
    (tryAttempt cfg oracle ci k s).2.2 = attemptOk cfg ci (oracle k) := by
  cases hco : (oracle k).connectOk <;> cases hsi : sourceId ci.token <;>
    cases hsv : (oracle k).serviceOk <;> cases hdb : cfg.downloadDbSources <;>
    cases hdbo : (oracle k).dbOk <;>
    simp [tryAttempt, attemptOk, hco, hsi, hsv, hdb, hdbo]

/-- Tracker effect of one retry-loop iteration: CONNECTED on success, untouched
otherwise. -/
theorem tryAttempt_status (cfg : StageLinqOptions) (oracle : Nat → AttemptSpec)
    (ci : ConnectionInfo) (k : Nat) (s : OrchState) :
    (tryAttempt cfg oracle ci k s).1.discoveryStatus =
      if attemptOk cfg ci (oracle k) then
        mapSet s.discoveryStatus (deviceId ci) ConnectionStatus.CONNECTED
      else s.discoveryStatus := by
  cases hco : (oracle k).connectOk <;> cases hsi : sourceId ci.token <;>
    cases hsv : (oracle k).serviceOk <;> cases hdb : cfg.downloadDbSources <;>
    cases hdbo : (oracle k).dbOk <;>
    simp [tryAttempt, attemptOk, hco, hsi, hsv, hdb, hdbo]

/-- Deferred-queue effect of one retry-loop iteration: one pair appended on
success, untouched otherwise. -/
theorem tryAttempt_queue (cfg : StageLinqOptions) (oracle : Nat → AttemptSpec)
    (ci : ConnectionInfo) (k : Nat) (s : OrchState) :
    (tryAttempt cfg oracle ci k s).1.stateMapCallback =
      if attemptOk cfg ci (oracle k) then s.stateMapCallback ++ [(ci, k)]
      else s.stateMapCallback := by
  cases hco : (oracle k).connectOk <;> cases hsi : sourceId ci.token <;>
    cases hsv : (oracle k).serviceOk <;> cases hdb : cfg.downloadDbSources <;>
    cases hdbo : (oracle k).dbOk <;>
    simp [tryAttempt, attemptOk, hco, hsi, hsv, hdb, hdbo]

/-- Events of one retry-loop iteration. -/
theorem tryAttempt_evs (cfg : StageLinqOptions) (oracle : Nat → AttemptSpec)
    (ci : ConnectionInfo) (k : Nat) (s : OrchState) :
    (tryAttempt cfg oracle ci k s).2.1 =
      if attemptOk cfg ci (oracle k) then [Ev.attemptStart ci k, Ev.connected ci]
      else [Ev.attemptStart ci k] := by
  cases hco : (oracle k).connectOk <;> cases hsi : sourceId ci.token <;>
    cases hsv : (oracle k).serviceOk <;> cases hdb : cfg.downloadDbSources <;>
    cases hdbo : (oracle k).dbOk <;>
    simp [tryAttempt, attemptOk, hco, hsi, hsv, hdb, hdbo]

/-- One retry-loop iteration never touches the in-flight list. -/
theorem tryAttempt_pending (cfg : StageLinqOptions) (oracle : Nat → AttemptSpec)
    (ci : ConnectionInfo) (k : Nat) (s : OrchState) :
    (tryAttempt cfg oracle ci k s).1.pending = s.pending := by
  cases hco : (oracle k).connectOk <;> cases hsi : sourceId ci.token <;>
    cases hsv : (oracle k).serviceOk <;> cases hdb : cfg.downloadDbSources <;>
    cases hdbo : (oracle k).dbOk <;>
    simp [tryAttempt, hco, hsi, hsv, hdb, hdbo]

/-- One retry-loop iteration never touches the barrier timer. -/
theorem tryAttempt_timer (cfg : StageLinqOptions) (oracle : Nat → AttemptSpec)
    (ci : ConnectionInfo) (k : Nat) (s : OrchState) :
    (tryAttempt cfg oracle ci k s).1.timerActive = s.timerActive := by
  cases hco : (oracle k).connectOk <;> cases hsi : sourceId ci.token <;>
    cases hsv : (oracle k).serviceOk <;> cases hdb : cfg.downloadDbSources <;>
    cases hdbo : (oracle k).dbOk <;>
    simp [tryAttempt, hco, hsi, hsv, hdb, hdbo]

/-- Registry entries after one retry-loop iteration are net:// keyed or
pre-existing. -/
theorem tryAttempt_devices_mem (cfg : StageLinqOptions) (oracle : Nat → AttemptSpec)
    (ci : ConnectionInfo) (k : Nat) (s : OrchState) {q : List Char × Session}
    (hq : q ∈ (tryAttempt cfg oracle ci k s).1.devices) :
    (∃ sid, q.1 = netKey sid) ∨ q ∈ s.devices := by
  rcases hco : (oracle k).connectOk <;> rcases hsi : sourceId ci.token with _ | sid <;>
    rcases hsv : (oracle k).serviceOk <;> rcases hdb : cfg.downloadDbSources <;>
    rcases hdbo : (oracle k).dbOk <;>
    simp [tryAttempt, hco, hsi, hsv, hdb, hdbo] at hq <;>
    first
      | exact Or.inr hq
      | rcases mem_mapSet hq with h | h
        · exact Or.inl ⟨sid, h⟩
        · exact Or.inr h

/-- A transport-connect failure leaves the state entirely unchanged. -/
theorem tryAttempt_connectFail (cfg : StageLinqOptions) (oracle : Nat → AttemptSpec)
    (ci : ConnectionInfo) (k : Nat) (s : OrchState) (h : (oracle k).connectOk = false) :
    tryAttempt cfg oracle ci k s = (s, [Ev.attemptStart ci k], false) := by
  simp [tryAttempt, h]

/-- The retry loop never touches the barrier timer. -/
theorem attemptLoop_timer (cfg : StageLinqOptions) (oracle : Nat → AttemptSpec)
    (ci : ConnectionInfo) : ∀ (fuel k : Nat) (s : OrchState),
    (attemptLoop cfg oracle ci fuel k s).1.timerActive = s.timerActive := by
  intro fuel
  induction fuel with
  | zero => intro k s; rfl
  | succ f ih =>
    intro k s
    by_cases h : (tryAttempt cfg oracle ci k s).2.2 = true
    · simp [attemptLoop, h, tryAttempt_timer]
    · simp [attemptLoop, h, ih, tryAttempt_timer]

/-- The retry loop never touches the in-flight list. -/
theorem attemptLoop_pending (cfg : StageLinqOptions) (oracle : Nat → AttemptSpec)
    (ci : ConnectionInfo) : ∀ (fuel k : Nat) (s : OrchState),
    (attemptLoop cfg oracle ci fuel k s).1.pending = s.pending := by
  intro fuel
  induction fuel with
  | zero => intro k s; rfl
  | succ f ih =>
    intro k s
    by_cases h : (tryAttempt cfg oracle ci k s).2.2 = true
    · simp [attemptLoop, h, tryAttempt_pending]
    · simp [attemptLoop, h, ih, tryAttempt_pending]

/-- Tracker effect of the whole retry loop: exactly one terminal write on the
device's own key. -/
theorem attemptLoop_status (cfg : StageLinqOptions) (oracle : Nat → AttemptSpec)
    (ci : ConnectionInfo) : ∀ (fuel k : Nat) (s : OrchState), ∃ st,
    (st = ConnectionStatus.CONNECTED ∨ st = ConnectionStatus.FAILED) ∧
    (attemptLoop cfg oracle ci fuel k s).1.discoveryStatus =
      mapSet s.discoveryStatus (deviceId ci) st := by
  intro fuel
  induction fuel with
  | zero => intro k s; exact ⟨ConnectionStatus.FAILED, Or.inr rfl, rfl⟩
  | succ f ih =>
    intro k s
    by_cases h : (tryAttempt cfg oracle ci k s).2.2 = true
    · refine ⟨ConnectionStatus.CONNECTED, Or.inl rfl, ?_⟩
      have hok : attemptOk cfg ci (oracle k) = true := by rw [← tryAttempt_flag]; exact h
      have hds := tryAttempt_status cfg oracle ci k s
      rw [hok] at hds
      simp only [if_pos rfl] at hds
      simp [attemptLoop, h, hds]
    · obtain ⟨st, hst, heq⟩ := ih (k + 1) (tryAttempt cfg oracle ci k s).1
      refine ⟨st, hst, ?_⟩
      have hok : attemptOk cfg ci (oracle k) = false := by
        rw [← tryAttempt_flag]; simpa using h
      have hds := tryAttempt_status cfg oracle ci k s
      rw [hok] at hds
      simp only [Bool.false_eq_true, if_false] at hds
      simp [attemptLoop, h, heq, hds]

/-- Every event the retry loop emits is an attempt start or a connected event
for its own device. -/
theorem attemptLoop_evs (cfg : StageLinqOptions) (oracle : Nat → AttemptSpec)
    (ci : ConnectionInfo) : ∀ (fuel k : Nat) (s : OrchState) (e : Ev),
    e ∈ (attemptLoop cfg oracle ci fuel k s).2.1 →
      (∃ j, e = Ev.attemptStart ci j) ∨ e = Ev.connected ci := by
  intro fuel
  induction fuel with
  | zero => intro k s e he; simp [attemptLoop] at he
  | succ f ih =>
    intro k s e he
    by_cases h : (tryAttempt cfg oracle ci k s).2.2 = true
    · rw [show (attemptLoop cfg oracle ci (f + 1) k s) =
          ((tryAttempt cfg oracle ci k s).1, (tryAttempt cfg oracle ci k s).2.1,
            ConnResult.ok) by simp [attemptLoop, h]] at he
      have hok : attemptOk cfg ci (oracle k) = true := by rw [← tryAttempt_flag]; exact h
      have hevs := tryAttempt_evs cfg oracle ci k s
      rw [hok] at hevs
      simp only [if_pos rfl] at hevs
      rw [hevs] at he
      simp at he
      rcases he with he | he
      · exact Or.inl ⟨k, he⟩
      · exact Or.inr he
    · have hevs := tryAttempt_evs cfg oracle ci k s
      have hok : attemptOk cfg ci (oracle k) = false := by
        rw [← tryAttempt_flag]; simpa using h
      rw [hok] at hevs
      simp only [Bool.false_eq_true, if_false] at hevs
      rw [show (attemptLoop cfg oracle ci (f + 1) k s).2.1 =
          (tryAttempt cfg oracle ci k s).2.1 ++
            (attemptLoop cfg oracle ci f (k + 1) (tryAttempt cfg oracle ci k s).1).2.1
          by simp [attemptLoop, h]] at he
      rw [hevs] at he
      simp at he
      rcases he with he | he
      · exact Or.inl ⟨k, he⟩
      · exact ih (k + 1) _ e he

/-- Registry entries after the whole retry loop are net:// keyed or
pre-existing. -/
theorem attemptLoop_devices (cfg : StageLinqOptions) (oracle : Nat → AttemptSpec)
    (ci : ConnectionInfo) : ∀ (fuel k : Nat) (s : OrchState) (q : List Char × Session),
    q ∈ (attemptLoop cfg oracle ci fuel k s).1.devices →
      (∃ sid, q.1 = netKey sid) ∨ q ∈ s.devices := by
  intro fuel
  induction fuel with
  | zero => intro k s q hq; exact Or.inr hq
  | succ f ih =>
    intro k s q hq
    by_cases h : (tryAttempt cfg oracle ci k s).2.2 = true
    · rw [show (attemptLoop cfg oracle ci (f + 1) k s).1 =
          (tryAttempt cfg oracle ci k s).1 by simp [attemptLoop, h]] at hq
      exact tryAttempt_devices_mem cfg oracle ci k s hq
    · rw [show (attemptLoop cfg oracle ci (f + 1) k s).1 =
          (attemptLoop cfg oracle ci f (k + 1) (tryAttempt cfg oracle ci k s).1).1
          by simp [attemptLoop, h]] at hq
      rcases ih (k + 1) _ q hq with h' | h'
      · exact Or.inl h'
      · exact tryAttempt_devices_mem cfg oracle ci k s h'

/-- Unfolding of the attempt-start event list over a range of attempt
numbers. -/
theorem range_map_attempt (ci : ConnectionInfo) (f k : Nat) :
    (List.range (f + 1)).map (fun j => Ev.attemptStart ci (k + j)) =
      Ev.attemptStart ci k ::
        (List.range f).map (fun j => Ev.attemptStart ci (k + 1 + j)) := by
  rw [List.range_succ_eq_map, List.map_cons, List.map_map]
  refine congrArg₂ List.cons (by simp) ?_
  apply List.map_congr_left
  intro j _
  show Ev.attemptStart ci (k + Nat.succ j) = Ev.attemptStart ci (k + 1 + j)
  congr 1
  omega

/-- When no attempt can succeed, the retry loop exhausts its fuel: the key ends
FAILED, the deferred queue is untouched, one attempt-start event per remaining
attempt is emitted and nothing else, and the terminal error is thrown. -/
theorem attemptLoop_all_fail (cfg : StageLinqOptions) (oracle : Nat → AttemptSpec)
    (ci : ConnectionInfo) (hf : ∀ j, attemptOk cfg ci (oracle j) = false) :
    ∀ (fuel k : Nat) (s : OrchState),
    (attemptLoop cfg oracle ci fuel k s).1.discoveryStatus =
        mapSet s.discoveryStatus (deviceId ci) ConnectionStatus.FAILED ∧
    (attemptLoop cfg oracle ci fuel k s).1.stateMapCallback = s.stateMapCallback ∧
    (attemptLoop cfg oracle ci fuel k s).2.1 =
        (List.range fuel).map (fun j => Ev.attemptStart ci (k + j)) ∧
    (attemptLoop cfg oracle ci fuel k s).2.2 = ConnResult.connectionFailed := by
  intro fuel
  induction fuel with
  | zero => intro k s; exact ⟨rfl, rfl, rfl, rfl⟩
  | succ f ih =>
    intro k s
    have h : ¬((tryAttempt cfg oracle ci k s).2.2 = true) := by
      rw [tryAttempt_flag, hf k]; simp
    have hok : attemptOk cfg ci (oracle k) = false := hf k
    have hds := tryAttempt_status cfg oracle ci k s
    have hq := tryAttempt_queue cfg oracle ci k s
    have hevs := tryAttempt_evs cfg oracle ci k s
    rw [hok] at hds hq hevs
    simp only [Bool.false_eq_true, if_false] at hds hq hevs
    obtain ⟨ih1, ih2, ih3, ih4⟩ := ih (k + 1) (tryAttempt cfg oracle ci k s).1
    refine ⟨?_, ?_, ?_, ?_⟩
    · rw [show (attemptLoop cfg oracle ci (f + 1) k s).1 =
          (attemptLoop cfg oracle ci f (k + 1) (tryAttempt cfg oracle ci k s).1).1
          by simp [attemptLoop, h]]
      rw [ih1, hds]
    · rw [show (attemptLoop cfg oracle ci (f + 1) k s).1 =
          (attemptLoop cfg oracle ci f (k + 1) (tryAttempt cfg oracle ci k s).1).1
          by simp [attemptLoop, h]]
      rw [ih2, hq]
    · rw [show (attemptLoop cfg oracle ci (f + 1) k s).2.1 =
          (tryAttempt cfg oracle ci k s).2.1 ++
            (attemptLoop cfg oracle ci f (k + 1) (tryAttempt cfg oracle ci k s).1).2.1
          by simp [attemptLoop, h]]
      rw [ih3, hevs, range_map_attempt]
      rfl
    · rw [show (attemptLoop cfg oracle ci (f + 1) k s).2.2 =
          (attemptLoop cfg oracle ci f (k + 1) (tryAttempt cfg oracle ci k s).1).2.2
          by simp [attemptLoop, h]]
      exact ih4

/-- When the transport connect itself fails on every attempt, the retry loop is
a pure fold: the state is unchanged except for the FAILED mark. -/
theorem attemptLoop_all_connectFail (cfg : StageLinqOptions) (oracle : Nat → AttemptSpec)
    (ci : ConnectionInfo) (hf : ∀ j, (oracle j).connectOk = false) :
    ∀ (fuel k : Nat) (s : OrchState),
    attemptLoop cfg oracle ci fuel k s =
      ({ s with discoveryStatus :=
          mapSet s.discoveryStatus (deviceId ci) ConnectionStatus.FAILED },
       (List.range fuel).map (fun j => Ev.attemptStart ci (k + j)),
       ConnResult.connectionFailed) := by
  intro fuel
  induction fuel with
  | zero => intro k s; rfl
  | succ f ih =>
    intro k s
    have ht := tryAttempt_connectFail cfg oracle ci k s (hf k)
    have h : ¬((tryAttempt cfg oracle ci k s).2.2 = true) := by rw [ht]; simp
    rw [show attemptLoop cfg oracle ci (f + 1) k s =
        ((attemptLoop cfg oracle ci f (k + 1) (tryAttempt cfg oracle ci k s).1).1,
         (tryAttempt cfg oracle ci k s).2.1 ++
           (attemptLoop cfg oracle ci f (k + 1) (tryAttempt cfg oracle ci k s).1).2.1,
         (attemptLoop cfg oracle ci f (k + 1) (tryAttempt cfg oracle ci k s).1).2.2)
        by simp [attemptLoop, h]]
    rw [ht, ih (k + 1) s]
    refine congrArg₂ Prod.mk rfl (congrArg₂ Prod.mk ?_ rfl)
    rw [range_map_attempt]
    rfl

/-- When the first i attempts fail and attempt k plus i succeeds within the
remaining fuel, the loop succeeds: exactly one connected event, the key marked
CONNECTED, exactly one pair appended to the deferred queue (carrying the
session of the successful attempt). -/
theorem attemptLoop_first_success (cfg : StageLinqOptions) (oracle : Nat → AttemptSpec)
    (ci : ConnectionInfo) : ∀ (i fuel k : Nat) (s : OrchState),
    i < fuel →
    (∀ j, j < i → attemptOk cfg ci (oracle (k + j)) = false) →
    attemptOk cfg ci (oracle (k + i)) = true →
    (attemptLoop cfg oracle ci fuel k s).2.1.countP isConnectedEv = 1 ∧
    (attemptLoop cfg oracle ci fuel k s).1.discoveryStatus =
      mapSet s.discoveryStatus (deviceId ci) ConnectionStatus.CONNECTED ∧
    (attemptLoop cfg oracle ci fuel k s).1.stateMapCallback =
      s.stateMapCallback ++ [(ci, k + i)] ∧
    (attemptLoop cfg oracle ci fuel k s).2.2 = ConnResult.ok := by
  intro i
  induction i with
  | zero =>
    intro fuel k s hlt _ hok
    rcases fuel with _ | f
    · omega
    rw [Nat.add_zero] at hok
    have h : (tryAttempt cfg oracle ci k s).2.2 = true := by rw [tryAttempt_flag, hok]
    have hds := tryAttempt_status cfg oracle ci k s
    have hq := tryAttempt_queue cfg oracle ci k s
    have hevs := tryAttempt_evs cfg oracle ci k s
    rw [hok] at hds hq hevs
    simp only [if_pos rfl] at hds hq hevs
    refine ⟨?_, ?_, ?_, ?_⟩
    · rw [show (attemptLoop cfg oracle ci (f + 1) k s).2.1 =
          (tryAttempt cfg oracle ci k s).2.1 by simp [attemptLoop, h]]
      rw [hevs]
      simp [isConnectedEv, List.countP_cons]
    · rw [show (attemptLoop cfg oracle ci (f + 1) k s).1 =
          (tryAttempt cfg oracle ci k s).1 by simp [attemptLoop, h]]
      exact hds
    · rw [show (attemptLoop cfg oracle ci (f + 1) k s).1 =
          (tryAttempt cfg oracle ci k s).1 by simp [attemptLoop, h]]
      exact hq
    · simp [attemptLoop, h]
  | succ i ih =>
    intro fuel k s hlt hfail hok
    rcases fuel with _ | f
    · omega
    have hok0 : attemptOk cfg ci (oracle k) = false := by
      have := hfail 0 (by omega)
      simpa using this
    have h : ¬((tryAttempt cfg oracle ci k s).2.2 = true) := by
      rw [tryAttempt_flag, hok0]; simp
    have hds := tryAttempt_status cfg oracle ci k s
    have hq := tryAttempt_queue cfg oracle ci k s
    have hevs := tryAttempt_evs cfg oracle ci k s
    rw [hok0] at hds hq hevs
    simp only [Bool.false_eq_true, if_false] at hds hq hevs
    have hih := ih f (k + 1) (tryAttempt cfg oracle ci k s).1 (by omega)
      (fun j hj => by
        have := hfail (j + 1) (by omega)
        rw [show k + 1 + j = k + (j + 1) by omega]
        exact this)
      (by rw [show k + 1 + i = k + (i + 1) by omega]; exact hok)
    obtain ⟨ih1, ih2, ih3, ih4⟩ := hih
    refine ⟨?_, ?_, ?_, ?_⟩
    · rw [show (attemptLoop cfg oracle ci (f + 1) k s).2.1 =
          (tryAttempt cfg oracle ci k s).2.1 ++
            (attemptLoop cfg oracle ci f (k + 1) (tryAttempt cfg oracle ci k s).1).2.1
          by simp [attemptLoop, h]]
      rw [List.countP_append, hevs, ih1]
      simp [isConnectedEv, List.countP_cons]
    · rw [show (attemptLoop cfg oracle ci (f + 1) k s).1 =
          (attemptLoop cfg oracle ci f (k + 1) (tryAttempt cfg oracle ci k s).1).1
          by simp [attemptLoop, h]]
      rw [ih2, hds]
    · rw [show (attemptLoop cfg oracle ci (f + 1) k s).1 =
          (attemptLoop cfg oracle ci f (k + 1) (tryAttempt cfg oracle ci k s).1).1
          by simp [attemptLoop, h]]
      rw [ih3, hq]
      have harith : k + 1 + i = k + (i + 1) := by omega
      rw [harith]
    · rw [show (attemptLoop cfg oracle ci (f + 1) k s).2.2 =
          (attemptLoop cfg oracle ci f (k + 1) (tryAttempt cfg oracle ci k s).1).2.2
          by simp [attemptLoop, h]]
      exact ih4

/-- handleDevice emits nothing by itself (connected events surface only when
the attempt later completes). -/
theorem handleDevice_evs (cfg : StageLinqOptions) (ci : ConnectionInfo)
    (oracle : Nat → AttemptSpec) (s : OrchState) :
    (handleDevice cfg ci oracle s).2 = [] := by
  unfold handleDevice
  split <;> rfl

/-- handleDevice never touches the barrier timer. -/
theorem handleDevice_timer (cfg : StageLinqOptions) (ci : ConnectionInfo)
    (oracle : Nat → AttemptSpec) (s : OrchState) :
    (handleDevice cfg ci oracle s).1.timerActive = s.timerActive := by
  unfold handleDevice
  split <;> rfl

/-- resumeAttempt never touches the barrier timer. -/
theorem resumeAttempt_timer (cfg : StageLinqOptions) (s : OrchState) (i : Nat) :
    (resumeAttempt cfg s i).1.timerActive = s.timerActive := by
  rcases hp : s.pending[i]? with _ | p
  · simp [resumeAttempt, hp]
  · simp [resumeAttempt, hp, attemptLoop_timer]

/-- resumeAttempt emits no ready event. -/
theorem resumeAttempt_no_ready (cfg : StageLinqOptions) (s : OrchState) (i : Nat) :
    countReady (resumeAttempt cfg s i).2 = 0 := by
  rcases hp : s.pending[i]? with _ | p
  · simp [resumeAttempt, hp, countReady]
  · simp only [resumeAttempt, hp, countReady]
    rw [List.countP_eq_zero]
    intro e he
    rcases attemptLoop_evs cfg p.2 p.1 (cfg.maxRetries - 1) 1 _ e he with ⟨j, hj⟩ | hj <;>
      simp [hj, isReadyEv]

/-- State-map setups are not ready events. -/
theorem countReady_setups (l : List (ConnectionInfo × Nat)) :
    countReady (l.map fun p => Ev.stateMapSetup p.1) = 0 := by
  simp only [countReady]
  rw [List.countP_eq_zero]
  intro e he
  rw [List.mem_map] at he
  obtain ⟨p, _, he⟩ := he
  simp [← he, isReadyEv]

/-- A tick on an empty tracker does nothing at all. -/
theorem waitForAllDevices_empty (s : OrchState) (h : s.discoveryStatus = []) :
    waitForAllDevices s = (s, []) := by
  unfold waitForAllDevices
  by_cases ht : s.timerActive = true
  · rw [if_pos ht, if_neg]
    simp [h]
  · rw [if_neg ht]

/-- Each step emits at most one ready event; emitting one requires the timer to
have been armed and disarms it; a disarmed timer stays disarmed and silent. -/
theorem step_ready_facts (cfg : StageLinqOptions) (s : OrchState) (i : Input) :
    countReady (step cfg s i).2 ≤ 1 ∧
    (1 ≤ countReady (step cfg s i).2 →
      s.timerActive = true ∧ (step cfg s i).1.timerActive = false) ∧
    (s.timerActive = false → (step cfg s i).1.timerActive = false ∧
      countReady (step cfg s i).2 = 0) := by
  cases i with
  | announce ci oracle =>
    rw [show step cfg s (Input.announce ci oracle) = handleDevice cfg ci oracle s from rfl]
    rw [handleDevice_evs]
    refine ⟨by simp [countReady], by simp [countReady], fun h => ?_⟩
    rw [handleDevice_timer]
    simp [countReady, h]
  | resume j =>
    rw [show step cfg s (Input.resume j) = resumeAttempt cfg s j from rfl]
    rw [resumeAttempt_no_ready]
    exact ⟨by omega, by omega, fun h => ⟨by rw [resumeAttempt_timer]; exact h, rfl⟩⟩
  | tick =>
    rw [show step cfg s Input.tick = waitForAllDevices s from rfl]
    by_cases ht : s.timerActive = true
    · by_cases hc : s.discoveryStatus ≠ [] ∧
          ∀ p ∈ s.discoveryStatus, p.2 ≠ ConnectionStatus.CONNECTING
      · have hw : waitForAllDevices s =
            ({ s with timerActive := false },
             (s.stateMapCallback.map fun p => Ev.stateMapSetup p.1) ++ [Ev.ready]) := by
          unfold waitForAllDevices
          rw [if_pos ht, if_pos hc]
        rw [hw]
        have hcount : countReady
            ((s.stateMapCallback.map fun p => Ev.stateMapSetup p.1) ++ [Ev.ready]) = 1 := by
          simp only [countReady, List.countP_append]
          have h0 := countReady_setups s.stateMapCallback
          simp only [countReady] at h0
          rw [h0]
          simp [List.countP_cons, isReadyEv]
        rw [hcount]
        exact ⟨le_refl 1, fun _ => ⟨ht, rfl⟩, fun h => by rw [h] at ht; cases ht⟩
      · have hw : waitForAllDevices s = (s, []) := by
          unfold waitForAllDevices
          rw [if_pos ht, if_neg hc]
        rw [hw]
        exact ⟨by simp [countReady], by simp [countReady],
          fun h => by rw [h] at ht; cases ht⟩
    · have hw : waitForAllDevices s = (s, []) := by
        unfold waitForAllDevices
        rw [if_neg ht]
      rw [hw]
      have ht' : s.timerActive = false := by simpa using ht
      exact ⟨by simp [countReady], by simp [countReady], fun _ => ⟨ht', by simp [countReady]⟩⟩

/-- A disarmed barrier stays disarmed and never emits ready again. -/
theorem run_timer_inactive (cfg : StageLinqOptions) : ∀ (inputs : List Input) (s : OrchState),
    s.timerActive = false →
    (run cfg s inputs).1.timerActive = false ∧ countReady (run cfg s inputs).2 = 0 := by
  intro inputs
  induction inputs with
  | nil => intro s h; exact ⟨h, rfl⟩
  | cons i rest ih =>
    intro s h
    obtain ⟨h1, h2⟩ := (step_ready_facts cfg s i).2.2 h
    obtain ⟨ih1, ih2⟩ := ih (step cfg s i).1 h1
    refine ⟨by simpa [run] using ih1, ?_⟩
    simp only [run, countReady, List.countP_append]
    have e2 : countReady (run cfg (step cfg s i).1 rest).2 = 0 := ih2
    simp only [countReady] at h2 e2
    omega

/-- Over any input sequence, ready is emitted at most once. -/
theorem countReady_run_le_one (cfg : StageLinqOptions) : ∀ (inputs : List Input) (s : OrchState),
    countReady (run cfg s inputs).2 ≤ 1 := by
  intro inputs
  induction inputs with
  | nil => intro s; simp [run, countReady]
  | cons i rest ih =>
    intro s
    obtain ⟨hle, hone, _⟩ := step_ready_facts cfg s i
    by_cases h : countReady (step cfg s i).2 = 0
    · have := ih (step cfg s i).1
      simp only [run, countReady, List.countP_append]
      simp only [countReady] at h this
      omega
    · have h1 : 1 ≤ countReady (step cfg s i).2 := by omega
      obtain ⟨_, hoff⟩ := hone h1
      have := (run_timer_inactive cfg rest (step cfg s i).1 hoff).2
      simp only [run, countReady, List.countP_append]
      simp only [countReady] at hle this
      omega

/-- With only ticks and an empty tracker, nothing is ever emitted. -/
theorem run_ticks_only (cfg : StageLinqOptions) : ∀ (inputs : List Input) (s : OrchState),
    (∀ i ∈ inputs, i = Input.tick) → s.discoveryStatus = [] →
    (run cfg s inputs).2 = [] := by
  intro inputs
  induction inputs with
  | nil => intro s _ _; rfl
  | cons i rest ih =>
    intro s hall hds
    have hi : i = Input.tick := hall i (List.mem_cons_self _ _)
    subst hi
    have hstep : step cfg s Input.tick = (s, []) := waitForAllDevices_empty s hds
    simp only [run, hstep]
    rw [ih s (fun j hj => hall j (List.mem_cons_of_mem _ hj)) hds]
    rfl

/-- resumeAttempt with an out-of-range index is a no-op. -/
theorem resumeAttempt_none (cfg : StageLinqOptions) (s : OrchState) (i : Nat)
    (hp : s.pending[i]? = none) : resumeAttempt cfg s i = (s, []) := by
  simp [resumeAttempt, hp]

/-- Unfolding of resumeAttempt on a live in-flight attempt. -/
theorem resumeAttempt_some (cfg : StageLinqOptions) (s : OrchState) (i : Nat)
    (p : ConnectionInfo × (Nat → AttemptSpec)) (hp : s.pending[i]? = some p) :
    resumeAttempt cfg s i =
      ((attemptLoop cfg p.2 p.1 (cfg.maxRetries - 1) 1
          { s with pending := removeNth s.pending i }).1,
       (attemptLoop cfg p.2 p.1 (cfg.maxRetries - 1) 1
          { s with pending := removeNth s.pending i }).2.1) := by
  simp [resumeAttempt, hp]

/-- The initial state satisfies the invariant. -/
theorem inv_init : Inv initState :=
  ⟨fun p hp => absurd hp (List.not_mem_nil p), List.Pairwise.nil⟩

/-- Each step preserves the invariant. -/
theorem step_inv (cfg : StageLinqOptions) (s : OrchState) (i : Input) (h : Inv s) :
    Inv (step cfg s i).1 := by
  obtain ⟨h1, h2⟩ := h
  cases i with
  | announce ci oracle =>
    rw [show step cfg s (Input.announce ci oracle) = handleDevice cfg ci oracle s from rfl]
    unfold handleDevice
    by_cases hcond : ((mapGet s.discoveryStatus (deviceId ci)).isSome || isIgnored cfg ci) = true
    · rw [if_pos hcond]; exact ⟨h1, h2⟩
    · rw [if_neg hcond]
      have hnone : mapGet s.discoveryStatus (deviceId ci) = none := by
        rcases hs : mapGet s.discoveryStatus (deviceId ci) with _ | v
        · rfl
        · rw [hs] at hcond; simp at hcond
      have hne : ∀ p ∈ s.pending, deviceId p.1 ≠ deviceId ci := by
        intro p hp heq
        have hcp := h1 p hp
        rw [heq, hnone] at hcp
        cases hcp
      constructor
      · intro p hp
        rcases List.mem_append.mp hp with hp' | hp'
        · rw [mapGet_mapSet_ne _ _ (hne p hp')]
          exact h1 p hp'
        · have hpe : p = (ci, oracle) := by simpa using hp'
          rw [hpe]
          exact mapGet_mapSet_self _ _ _
      · rw [List.pairwise_append]
        refine ⟨h2, List.pairwise_singleton _ _, ?_⟩
        intro p hp q hq
        have hqe : q = (ci, oracle) := by simpa using hq
        rw [hqe]
        exact hne p hp
  | resume j =>
    rw [show step cfg s (Input.resume j) = resumeAttempt cfg s j from rfl]
    rcases hp : s.pending[j]? with _ | p
    · rw [resumeAttempt_none cfg s j hp]; exact ⟨h1, h2⟩
    · rw [resumeAttempt_some cfg s j p hp]
      obtain ⟨st, _, hds⟩ := attemptLoop_status cfg p.2 p.1 (cfg.maxRetries - 1) 1
        { s with pending := removeNth s.pending j }
      have hpend := attemptLoop_pending cfg p.2 p.1 (cfg.maxRetries - 1) 1
        { s with pending := removeNth s.pending j }
      constructor
      · intro q hq
        rw [hpend] at hq
        have hq' : q ∈ removeNth s.pending j := hq
        have hmem : q ∈ s.pending := mem_removeNth hq'
        have hkeyne : deviceId q.1 ≠ deviceId p.1 := by
          rcases pairwise_rel_removeNth h2 hp q hq' with hne | hne
          · exact hne.symm
          · exact hne
        rw [hds]
        rw [mapGet_mapSet_ne _ _ hkeyne]
        exact h1 q hmem
      · rw [hpend]
        exact pairwise_removeNth h2
  | tick =>
    rw [show step cfg s Input.tick = waitForAllDevices s from rfl]
    unfold waitForAllDevices
    by_cases ht : s.timerActive = true
    · by_cases hc : s.discoveryStatus ≠ [] ∧
          ∀ p ∈ s.discoveryStatus, p.2 ≠ ConnectionStatus.CONNECTING
      · rw [if_pos ht, if_pos hc]; exact ⟨h1, h2⟩
      · rw [if_pos ht, if_neg hc]; exact ⟨h1, h2⟩
    · rw [if_neg ht]; exact ⟨h1, h2⟩

/-- Reachable states satisfy the invariant. -/
theorem run_inv (cfg : StageLinqOptions) : ∀ (inputs : List Input) (s : OrchState),
    Inv s → Inv (run cfg s inputs).1 := by
  intro inputs
  induction inputs with
  | nil => intro s h; exact h
  | cons i rest ih => intro s h; exact ih (step cfg s i).1 (step_inv cfg s i h)

/-- statusLe is reflexive. -/
theorem statusLe_refl (a : Option ConnectionStatus) : statusLe a a = true := by
  rcases a with _ | st
  · rfl
  · cases st <;> rfl

/-- statusLe is transitive. -/
theorem statusLe_trans {a b c : Option ConnectionStatus} (h1 : statusLe a b = true)
    (h2 : statusLe b c = true) : statusLe a c = true := by
  rcases a with _ | sa
  · rfl
  rcases b with _ | sb
  · cases sa <;> simp [statusLe] at h1
  rcases c with _ | sc
  · cases sb <;> simp [statusLe] at h2
  cases sa <;> cases sb <;> cases sc <;> simp_all [statusLe]

/-- Each step only moves tracker entries forward: new entries may appear, a
CONNECTING entry may settle, and settled entries never change. -/
theorem step_statusLe (cfg : StageLinqOptions) (s : OrchState) (i : Input) (h : Inv s)
    (key : List Char) :
    statusLe (mapGet s.discoveryStatus key) (mapGet (step cfg s i).1.discoveryStatus key)
      = true := by
  obtain ⟨h1, h2⟩ := h
  cases i with
  | announce ci oracle =>
    rw [show step cfg s (Input.announce ci oracle) = handleDevice cfg ci oracle s from rfl]
    unfold handleDevice
    by_cases hcond : ((mapGet s.discoveryStatus (deviceId ci)).isSome || isIgnored cfg ci) = true
    · rw [if_pos hcond]; exact statusLe_refl _
    · rw [if_neg hcond]
      have hnone : mapGet s.discoveryStatus (deviceId ci) = none := by
        rcases hs : mapGet s.discoveryStatus (deviceId ci) with _ | v
        · rfl
        · rw [hs] at hcond; simp at hcond
      by_cases hkey : key = deviceId ci
      · rw [hkey, hnone]; rfl
      · rw [show ({ s with
            discoveryStatus := mapSet s.discoveryStatus (deviceId ci) ConnectionStatus.CONNECTING,
            pending := s.pending ++ [(ci, oracle)] } : OrchState).discoveryStatus =
            mapSet s.discoveryStatus (deviceId ci) ConnectionStatus.CONNECTING from rfl]
        rw [mapGet_mapSet_ne _ _ hkey]
        exact statusLe_refl _
  | resume j =>
    rw [show step cfg s (Input.resume j) = resumeAttempt cfg s j from rfl]
    rcases hp : s.pending[j]? with _ | p
    · rw [resumeAttempt_none cfg s j hp]; exact statusLe_refl _
    · rw [resumeAttempt_some cfg s j p hp]
      obtain ⟨st, _, hds⟩ := attemptLoop_status cfg p.2 p.1 (cfg.maxRetries - 1) 1
        { s with pending := removeNth s.pending j }
      rw [hds]
      by_cases hkey : key = deviceId p.1
      · subst hkey
        rw [mapGet_mapSet_self]
        rw [h1 p (List.getElem?_mem hp)]
        cases st <;> rfl
      · rw [mapGet_mapSet_ne _ _ hkey]
        exact statusLe_refl _
  | tick =>
    rw [show step cfg s Input.tick = waitForAllDevices s from rfl]
    unfold waitForAllDevices
    by_cases ht : s.timerActive = true
    · by_cases hc : s.discoveryStatus ≠ [] ∧
          ∀ p ∈ s.discoveryStatus, p.2 ≠ ConnectionStatus.CONNECTING
      · rw [if_pos ht, if_pos hc]; exact statusLe_refl _
      · rw [if_pos ht, if_neg hc]; exact statusLe_refl _
    · rw [if_neg ht]; exact statusLe_refl _

/-- When a step creates a tracker entry, the entry is created CONNECTING. -/
theorem step_creation (cfg : StageLinqOptions) (s : OrchState) (i : Input) (h : Inv s)
    (key : List Char) (st : ConnectionStatus)
    (hbefore : mapGet s.discoveryStatus key = none)
    (hafter : mapGet (step cfg s i).1.discoveryStatus key = some st) :
    st = ConnectionStatus.CONNECTING := by
  obtain ⟨h1, h2⟩ := h
  cases i with
  | announce ci oracle =>
    rw [show step cfg s (Input.announce ci oracle) = handleDevice cfg ci oracle s from rfl]
      at hafter
    unfold handleDevice at hafter
    by_cases hcond : ((mapGet s.discoveryStatus (deviceId ci)).isSome || isIgnored cfg ci) = true
    · rw [if_pos hcond] at hafter
      rw [hbefore] at hafter
      cases hafter
    · rw [if_neg hcond] at hafter
      by_cases hkey : key = deviceId ci
      · rw [show ({ s with
            discoveryStatus := mapSet s.discoveryStatus (deviceId ci) ConnectionStatus.CONNECTING,
            pending := s.pending ++ [(ci, oracle)] } : OrchState).discoveryStatus =
            mapSet s.discoveryStatus (deviceId ci) ConnectionStatus.CONNECTING from rfl,
          hkey, mapGet_mapSet_self] at hafter
        exact (Option.some.injEq _ _ ▸ hafter).symm
      · rw [show ({ s with
            discoveryStatus := mapSet s.discoveryStatus (deviceId ci) ConnectionStatus.CONNECTING,
            pending := s.pending ++ [(ci, oracle)] } : OrchState).discoveryStatus =
            mapSet s.discoveryStatus (deviceId ci) ConnectionStatus.CONNECTING from rfl,
          mapGet_mapSet_ne _ _ hkey, hbefore] at hafter
        cases hafter
  | resume j =>
    rw [show step cfg s (Input.resume j) = resumeAttempt cfg s j from rfl] at hafter
    rcases hp : s.pending[j]? with _ | p
    · rw [resumeAttempt_none cfg s j hp, hbefore] at hafter
      cases hafter
    · rw [resumeAttempt_some cfg s j p hp] at hafter
      obtain ⟨st', _, hds⟩ := attemptLoop_status cfg p.2 p.1 (cfg.maxRetries - 1) 1
        { s with pending := removeNth s.pending j }
      rw [hds] at hafter
      by_cases hkey : key = deviceId p.1
      · rw [hkey] at hbefore
        rw [h1 p (List.getElem?_mem hp)] at hbefore
        cases hbefore
      · rw [mapGet_mapSet_ne _ _ hkey, hbefore] at hafter
        cases hafter
  | tick =>
    rw [show step cfg s Input.tick = waitForAllDevices s from rfl] at hafter
    unfold waitForAllDevices at hafter
    by_cases ht : s.timerActive = true
    · by_cases hc : s.discoveryStatus ≠ [] ∧
          ∀ p ∈ s.discoveryStatus, p.2 ≠ ConnectionStatus.CONNECTING
      · rw [if_pos ht, if_pos hc] at hafter
        rw [show ({ s with timerActive := false } : OrchState).discoveryStatus =
            s.discoveryStatus from rfl, hbefore] at hafter
        cases hafter
      · rw [if_pos ht, if_neg hc, hbefore] at hafter
        cases hafter
    · rw [if_neg ht, hbefore] at hafter
      cases hafter

/-- Tracker entries only move forward over any further run from an invariant
state. -/
theorem run_statusLe (cfg : StageLinqOptions) : ∀ (more : List Input) (s : OrchState),
    Inv s → ∀ key,
    statusLe (mapGet s.discoveryStatus key)
      (mapGet (run cfg s more).1.discoveryStatus key) = true := by
  intro more
  induction more with
  | nil => intro s _ key; exact statusLe_refl _
  | cons i rest ih =>
    intro s h key
    exact statusLe_trans (step_statusLe cfg s i h key)
      (ih (step cfg s i).1 (step_inv cfg s i h) key)

/-- Appending a digit multiplies the value by ten and adds it. -/
theorem digitsVal_append_single (l : List Nat) (d : Nat) :
    digitsVal (l ++ [d]) = 10 * digitsVal l + d := by
  simp [digitsVal, List.foldl_append]

/-- With enough fuel, the rendered digits evaluate back to the number. -/
theorem portDigits_val : ∀ (fuel n : Nat), n < fuel → digitsVal (portDigits fuel n) = n := by
  intro fuel
  induction fuel with
  | zero => intro n h; omega
  | succ f ih =>
    intro n h
    by_cases h10 : n < 10
    · simp [portDigits, h10, digitsVal]
    · have hdivlt : n / 10 < f := by
        have hlt : n / 10 < n := Nat.div_lt_self (by omega) (by omega)
        omega
      rw [show portDigits (f + 1) n = portDigits f (n / 10) ++ [n % 10] by
        simp [portDigits, h10]]
      rw [digitsVal_append_single, ih (n / 10) hdivlt]
      omega

/-- Every rendered decimal digit is below ten. -/
theorem portDigits_lt : ∀ (fuel n d : Nat), d ∈ portDigits fuel n → d < 10 := by
  intro fuel
  induction fuel with
  | zero => intro n d h; simp [portDigits] at h
  | succ f ih =>
    intro n d h
    by_cases h10 : n < 10
    · simp [portDigits, h10] at h; omega
    · rw [show portDigits (f + 1) n = portDigits f (n / 10) ++ [n % 10] by
        simp [portDigits, h10]] at h
      rcases List.mem_append.mp h with h | h
      · exact ih (n / 10) d h
      · simp at h; omega

/-- digitChar is injective below sixteen. -/
theorem digitChar_inj_lt : ∀ a < 16, ∀ b < 16, Nat.digitChar a = Nat.digitChar b → a = b := by
  decide

/-- Mapping digitChar over bounded digit lists is injective. -/
theorem map_digitChar_inj : ∀ (l1 l2 : List Nat), (∀ d ∈ l1, d < 10) → (∀ d ∈ l2, d < 10) →
    l1.map Nat.digitChar = l2.map Nat.digitChar → l1 = l2 := by
  intro l1
  induction l1 with
  | nil => intro l2 _ _ h; cases l2 with
    | nil => rfl
    | cons y ys => simp at h
  | cons x xs ih =>
    intro l2 hb1 hb2 h
    cases l2 with
    | nil => simp at h
    | cons y ys =>
      simp only [List.map_cons, List.cons.injEq] at h
      have hx : x = y := digitChar_inj_lt x (by have := hb1 x (by simp); omega) y
        (by have := hb2 y (by simp); omega) h.1
      have hxs : xs = ys := ih ys (fun d hd => hb1 d (by simp [hd]))
        (fun d hd => hb2 d (by simp [hd])) h.2
      rw [hx, hxs]

/-- The decimal rendering of a port is injective. -/
theorem portChars_inj {m n : Nat} (h : portChars m = portChars n) : m = n := by
  unfold portChars at h
  have hd : portDigits (m + 1) m = portDigits (n + 1) n :=
    map_digitChar_inj _ _ (fun d hd => portDigits_lt _ _ d hd)
      (fun d hd => portDigits_lt _ _ d hd) h
  have hm := portDigits_val (m + 1) m (by omega)
  have hn := portDigits_val (n + 1) n (by omega)
  rw [hd] at hm
  omega

/-- No decimal digit renders as a colon. -/
theorem colon_not_mem_portChars (n : Nat) : ':' ∉ portChars n := by
  intro hmem
  unfold portChars at hmem
  rw [List.mem_map] at hmem
  obtain ⟨d, hd, hdc⟩ := hmem
  have hlt : d < 10 := portDigits_lt _ _ d hd
  have : ∀ x < 10, Nat.digitChar x ≠ ':' := by decide
  exact this d hlt hdc

/-- Splitting a concatenation at a separator character absent from both left
parts is unambiguous. -/
theorem append_sep_inj {c : Char} : ∀ {a a' r r' : List Char}, c ∉ a → c ∉ a' →
    a ++ c :: r = a' ++ c :: r' → a = a' ∧ r = r' := by
  intro a
  induction a with
  | nil =>
    intro a' r r' _ ha' h
    cases a' with
    | nil => simpa using h
    | cons y ys =>
      simp only [List.nil_append, List.cons_append, List.cons.injEq] at h
      exact absurd (h.1 ▸ List.mem_cons_self y ys) (h.1 ▸ ha')
  | cons x xs ih =>
    intro a' r r' ha ha' h
    cases a' with
    | nil =>
      simp only [List.nil_append, List.cons_append, List.cons.injEq] at h
      exact absurd (h.1 ▸ List.mem_cons_self x xs) (h.1.symm ▸ ha)
    | cons y ys =>
      simp only [List.cons_append, List.cons.injEq] at h
      obtain ⟨hxy, h2⟩ := h
      have hres := ih (fun hm => ha (List.mem_cons_of_mem _ hm))
        (fun hm => ha' (List.mem_cons_of_mem _ hm)) h2
      exact ⟨by rw [hxy, hres.1], hres.2⟩

/-- Identical identity tuples yield identical device keys. -/
theorem deviceId_deterministic (A B : ConnectionInfo) (h1 : A.address = B.address)
    (h2 : A.port = B.port) (h3 : A.source = B.source) (h4 : A.softwareName = B.softwareName) :
    deviceId A = deviceId B := by
  simp [deviceId, h1, h2, h3, h4]

/-- Device keys are collision-free for tuples whose address avoids the colon
separator and whose source avoids the slash separator. -/
theorem deviceId_inj (A B : ConnectionInfo) (hA : ':' ∉ A.address) (hB : ':' ∉ B.address)
    (hsA : '/' ∉ A.source) (hsB : '/' ∉ B.source) (h : deviceId A = deviceId B) :
    A.address = B.address ∧ A.port = B.port ∧ A.source = B.source ∧
      A.softwareName = B.softwareName := by
  unfold deviceId at h
  obtain ⟨ha, h⟩ := append_sep_inj hA hB h
  obtain ⟨hp, h⟩ := append_sep_inj (colon_not_mem_portChars A.port)
    (colon_not_mem_portChars B.port) h
  injection h with _ h
  obtain ⟨hs, h⟩ := append_sep_inj hsA hsB h
  have hlen : A.softwareName.length = B.softwareName.length := by
    have hl := congrArg List.length h
    simpa using hl
  obtain ⟨hn, _⟩ := List.append_inj h hlen
  exact ⟨ha, portChars_inj hp, hs, hn⟩

/-- The hex encoding of a token has two characters per byte. -/
theorem tokenHex_length (t : List Nat) : (tokenHex t).length = 2 * t.length := by
  induction t with
  | nil => rfl
  | cons b t ih =>
    rw [show tokenHex (b :: t) = hexPair b ++ tokenHex t by simp [tokenHex]]
    simp [hexPair, ih]
    omega

/-- sourceId fails exactly on tokens shorter than sixteen bytes. -/
theorem sourceId_none_iff (t : List Nat) : sourceId t = none ↔ t.length < 16 := by
  have hlen := tokenHex_length t
  unfold sourceId
  by_cases h : (tokenHex t).length < 32
  · rw [if_pos h]
    exact ⟨fun _ => by omega, fun _ => rfl⟩
  · rw [if_neg h]
    exact ⟨fun hc => absurd hc (by simp), fun hc => absurd hc (by omega)⟩

/-- On tokens of at least sixteen bytes, sourceId yields a 36-character id. -/
theorem sourceId_some_length (t : List Nat) (h : 16 ≤ t.length) :
    ∃ id, sourceId t = some id ∧ id.length = 36 := by
  have hlen : ¬((tokenHex t).length < 32) := by rw [tokenHex_length]; omega
  refine ⟨_, by unfold sourceId; rw [if_neg hlen], ?_⟩
  have h32 : ((tokenHex t).take 32).length = 32 := by
    rw [List.length_take, tokenHex_length]
    omega
  simp only [List.length_append, List.length_cons, List.length_take, List.length_drop, h32]
  omega

/-- On a token of exactly sixteen bytes, sourceId is the dash-grouping of the
whole 32-character hex string, with no truncation. -/
theorem sourceId_sixteen (t : List Nat) (h : t.length = 16) :
    sourceId t = some ((tokenHex t).take 8 ++ '-' :: (((tokenHex t).drop 8).take 4
      ++ '-' :: (((tokenHex t).drop 12).take 4 ++ '-' :: (((tokenHex t).drop 16).take 4
      ++ '-' :: ((tokenHex t).drop 20).take 12)))) := by
  have hlen : (tokenHex t).length = 32 := by rw [tokenHex_length]; omega
  have htake : (tokenHex t).take 32 = tokenHex t := by
    rw [show (32 : Nat) = (tokenHex t).length from hlen.symm]
    exact List.take_length _
  unfold sourceId
  rw [if_neg (by omega), htake]

/-- An id produced by sourceId starts with a hexadecimal digit, which is not
the letter starting the net:// registry key. -/
theorem sourceId_head (t : List Nat) (id : List Char) (h : sourceId t = some id) :
    ∃ c rest, id = c :: rest ∧ c ≠ 'n' := by
  have hlen : ¬(t.length < 16) := by
    intro hc
    rw [(sourceId_none_iff t).mpr hc] at h
    cases h
  cases t with
  | nil => simp at hlen
  | cons b t' =>
    have hhex : tokenHex (b :: t') =
        Nat.digitChar (b % 256 / 16) :: Nat.digitChar (b % 16) :: tokenHex t' := by
      simp [tokenHex, hexPair]
    have hne : Nat.digitChar (b % 256 / 16) ≠ 'n' := by
      have hbound : b % 256 / 16 < 16 := by omega
      have hall : ∀ x < 16, Nat.digitChar x ≠ 'n' := by decide
      exact hall _ hbound
    unfold sourceId at h
    rw [if_neg (by rw [tokenHex_length]; simp at hlen; simp; omega)] at h
    rw [hhex] at h
    simp only [List.take_succ_cons, List.cons_append] at h
    exact ⟨_, _, (Option.some.injEq _ _ ▸ h).symm, hne⟩

/-- downloadFile on a key absent from the registry dereferences the missing
entry and fails before any file-transfer interaction. -/
theorem downloadFile_absent (s : OrchState) (g : List Char → List Nat)
    (dk path : List Char) (h : mapGet s.devices dk = none) :
    downloadFile s g dk path = (DownloadResult.derefError, []) := by
  simp [downloadFile, h]

/-- Registry entries of any step are net:// keyed or pre-existing. -/
theorem step_devices (cfg : StageLinqOptions) (s : OrchState) (i : Input)
    (q : List Char × Session) (hq : q ∈ (step cfg s i).1.devices) :
    (∃ sid, q.1 = netKey sid) ∨ q ∈ s.devices := by
  cases i with
  | announce ci oracle =>
    rw [show step cfg s (Input.announce ci oracle) = handleDevice cfg ci oracle s from rfl]
      at hq
    unfold handleDevice at hq
    by_cases hcond : ((mapGet s.discoveryStatus (deviceId ci)).isSome || isIgnored cfg ci) = true
    · rw [if_pos hcond] at hq; exact Or.inr hq
    · rw [if_neg hcond] at hq; exact Or.inr hq
  | resume j =>
    rw [show step cfg s (Input.resume j) = resumeAttempt cfg s j from rfl] at hq
    rcases hp : s.pending[j]? with _ | p
    · rw [resumeAttempt_none cfg s j hp] at hq; exact Or.inr hq
    · rw [resumeAttempt_some cfg s j p hp] at hq
      have hq' : q ∈ (attemptLoop cfg p.2 p.1 (cfg.maxRetries - 1) 1
          { s with pending := removeNth s.pending j }).1.devices := hq
      rcases attemptLoop_devices cfg p.2 p.1 (cfg.maxRetries - 1) 1
          { s with pending := removeNth s.pending j } q hq' with h' | h'
      · exact Or.inl h'
      · exact Or.inr h'
  | tick =>
    rw [show step cfg s Input.tick = waitForAllDevices s from rfl] at hq
    unfold waitForAllDevices at hq
    by_cases ht : s.timerActive = true
    · by_cases hc : s.discoveryStatus ≠ [] ∧
          ∀ p ∈ s.discoveryStatus, p.2 ≠ ConnectionStatus.CONNECTING
      · rw [if_pos ht, if_pos hc] at hq; exact Or.inr hq
      · rw [if_pos ht, if_neg hc] at hq; exact Or.inr hq
    · rw [if_neg ht] at hq; exact Or.inr hq

/-- In every reachable state, all registry keys carry the net:// tag. -/
theorem run_devices_net (cfg : StageLinqOptions) : ∀ (inputs : List Input) (s : OrchState),
    (∀ q ∈ s.devices, ∃ sid, q.1 = netKey sid) →
    ∀ q ∈ (run cfg s inputs).1.devices, ∃ sid, q.1 = netKey sid := by
  intro inputs
  induction inputs with
  | nil => intro s h; exact h
  | cons i rest ih =>
    intro s h q hq
    refine ih (step cfg s i).1 ?_ q hq
    intro q' hq'
    rcases step_devices cfg s i q' hq' with h' | h'
    · exact h'
    · exact h q' h'

/-- Claim C1: the readiness barrier emits ready at most once per orchestrator
lifetime; ready is emitted only on a tick at which at least one device key has
a recorded status and none is CONNECTING; at that tick setupStateMap runs
exactly once for each entry of the deferred state-sync queue and for no other
device; and if no announcement is ever handled, ready is never emitted. -/
theorem C1_readiness_barrier :
    (∀ (cfg : StageLinqOptions) (inputs : List Input),
      countReady (run cfg initState inputs).2 ≤ 1)
    ∧ (∀ (cfg : StageLinqOptions) (s : OrchState) (i : Input),
        Ev.ready ∈ (step cfg s i).2 →
          i = Input.tick ∧ s.timerActive = true ∧ s.discoveryStatus ≠ [] ∧
          ∀ p ∈ s.discoveryStatus, p.2 ≠ ConnectionStatus.CONNECTING)
    ∧ (∀ (cfg : StageLinqOptions) (s : OrchState),
        s.timerActive = true → s.discoveryStatus ≠ [] →
        (∀ p ∈ s.discoveryStatus, p.2 ≠ ConnectionStatus.CONNECTING) →
        (step cfg s Input.tick).2 =
          (s.stateMapCallback.map fun p => Ev.stateMapSetup p.1) ++ [Ev.ready])
    ∧ (∀ (cfg : StageLinqOptions) (inputs : List Input),
        (∀ i ∈ inputs, i = Input.tick) → countReady (run cfg initState inputs).2 = 0) := by
  refine ⟨fun cfg inputs => countReady_run_le_one cfg inputs initState, ?_, ?_, ?_⟩
  · intro cfg s i hmem
    cases i with
    | announce ci oracle =>
      rw [show step cfg s (Input.announce ci oracle) = handleDevice cfg ci oracle s from rfl,
        handleDevice_evs] at hmem
      cases hmem
    | resume j =>
      have h0 := resumeAttempt_no_ready cfg s j
      rw [show step cfg s (Input.resume j) = resumeAttempt cfg s j from rfl] at hmem
      simp only [countReady] at h0
      have hfalse := List.countP_eq_zero.mp h0 Ev.ready hmem
      simp [isReadyEv] at hfalse
    | tick =>
      rw [show step cfg s Input.tick = waitForAllDevices s from rfl] at hmem
      unfold waitForAllDevices at hmem
      by_cases ht : s.timerActive = true
      · by_cases hc : s.discoveryStatus ≠ [] ∧
            ∀ p ∈ s.discoveryStatus, p.2 ≠ ConnectionStatus.CONNECTING
        · exact ⟨rfl, ht, hc.1, hc.2⟩
        · rw [if_pos ht, if_neg hc] at hmem
          cases hmem
      · rw [if_neg ht] at hmem
        cases hmem
  · intro cfg s ht hne hnc
    rw [show step cfg s Input.tick = waitForAllDevices s from rfl]
    unfold waitForAllDevices
    rw [if_pos ht, if_pos ⟨hne, hnc⟩]
  · intro cfg inputs hall
    rw [run_ticks_only cfg inputs initState hall rfl]
    rfl

/-- Witness for C1 at concrete inputs: a tick on a quiesced one-device state
emits exactly the queued setup then ready, that ready is seen by the
characterization, and a tick-only trace emits nothing. -/
theorem C1_readiness_barrier_witness :
    ((step cfgA sWitness Input.tick).2 =
      (sWitness.stateMapCallback.map fun p => Ev.stateMapSetup p.1) ++ [Ev.ready])
    ∧ (Input.tick = Input.tick ∧ sWitness.timerActive = true ∧
        sWitness.discoveryStatus ≠ [] ∧
        ∀ p ∈ sWitness.discoveryStatus, p.2 ≠ ConnectionStatus.CONNECTING)
    ∧ countReady (run cfgA initState [Input.tick, Input.tick]).2 = 0 :=
  ⟨C1_readiness_barrier.2.2.1 cfgA sWitness rfl (by decide) (by decide),
   C1_readiness_barrier.2.1 cfgA sWitness Input.tick (by decide),
   C1_readiness_barrier.2.2.2 cfgA [Input.tick, Input.tick]
     (by intro i hi; rcases List.mem_cons.mp hi with h | h
         · exact h
         · rcases List.mem_cons.mp h with h' | h'
           · exact h'
           · cases h')⟩

/-- Claim C2 counterexample: with database download enabled and a database
download that always fails while transport and file-transfer succeed, the
attempt does not stay successful as the claim states: the key ends FAILED, no
connected event is emitted, nothing is enqueued, and the terminal error is
raised. -/
theorem C2_counterexample :
    cfgA.downloadDbSources = true ∧
    (∀ k : Nat, (oracleDbFail k).connectOk = true ∧ (oracleDbFail k).serviceOk = true) ∧
    mapGet (connectToDevice cfgA oracleDbFail ciA initState).1.discoveryStatus (deviceId ciA)
      = some ConnectionStatus.FAILED ∧
    (connectToDevice cfgA oracleDbFail ciA initState).2.1.countP isConnectedEv = 0 ∧
    (connectToDevice cfgA oracleDbFail ciA initState).1.stateMapCallback = [] ∧
    (connectToDevice cfgA oracleDbFail ciA initState).2.2 = ConnResult.connectionFailed :=
  ⟨rfl, fun _ => ⟨rfl, rfl⟩, by decide, by decide, by decide, by decide⟩

/-- Claim C2 amended: a failure raised by the database download step is caught
by the retry loop like any other attempt failure, so the attempt is retried;
when the database download fails on every attempt, the key is marked FAILED,
no connected event is emitted, nothing is enqueued, every retry is consumed,
and the terminal error is raised. -/
theorem C2_database_failure_fails_attempt (cfg : StageLinqOptions)
    (oracle : Nat → AttemptSpec) (ci : ConnectionInfo) (s : OrchState)
    (hdb : cfg.downloadDbSources = true) (hfail : ∀ k, (oracle k).dbOk = false) :
    mapGet (connectToDevice cfg oracle ci s).1.discoveryStatus (deviceId ci)
      = some ConnectionStatus.FAILED ∧
    (connectToDevice cfg oracle ci s).2.1.countP isConnectedEv = 0 ∧
    (connectToDevice cfg oracle ci s).2.1.countP isAttemptStartEv = cfg.maxRetries - 1 ∧
    (connectToDevice cfg oracle ci s).1.stateMapCallback = s.stateMapCallback ∧
    (connectToDevice cfg oracle ci s).2.2 = ConnResult.connectionFailed := by
  have hok : ∀ j, attemptOk cfg ci (oracle j) = false := by
    intro j
    unfold attemptOk
    rw [hdb, hfail j]
    simp
  unfold connectToDevice
  obtain ⟨h1, h2, h3, h4⟩ := attemptLoop_all_fail cfg oracle ci hok (cfg.maxRetries - 1) 1 _
  refine ⟨?_, ?_, ?_, h2, h4⟩
  · rw [h1, mapGet_mapSet_self]
  · rw [h3, List.countP_eq_zero]
    intro e he
    rw [List.mem_map] at he
    obtain ⟨j, _, hj⟩ := he
    simp [← hj, isConnectedEv]
  · rw [h3]
    rw [List.countP_eq_length.mpr]
    · simp
    · intro e he
      rw [List.mem_map] at he
      obtain ⟨j, _, hj⟩ := he
      simp [← hj, isAttemptStartEv]

/-- Witness for the amended C2 at a concrete configuration and oracle. -/
theorem C2_database_failure_witness :
    mapGet (connectToDevice cfgA oracleDbFail ciA initState).1.discoveryStatus (deviceId ciA)
      = some ConnectionStatus.FAILED ∧
    (connectToDevice cfgA oracleDbFail ciA initState).2.1.countP isConnectedEv = 0 ∧
    (connectToDevice cfgA oracleDbFail ciA initState).2.1.countP isAttemptStartEv
      = cfgA.maxRetries - 1 ∧
    (connectToDevice cfgA oracleDbFail ciA initState).1.stateMapCallback
      = initState.stateMapCallback ∧
    (connectToDevice cfgA oracleDbFail ciA initState).2.2 = ConnResult.connectionFailed :=
  C2_database_failure_fails_attempt cfgA oracleDbFail ciA initState rfl (fun _ => rfl)

/-- Claim C3: when the transport connect fails on every attempt, the driver
makes exactly maxRetries minus one attempts, marks the key FAILED, raises the
terminal ConnectionFailed error, emits no connected event, and leaves the
Device Registry untouched. -/
theorem C3_transport_failure_exhausts (cfg : StageLinqOptions)
    (oracle : Nat → AttemptSpec) (ci : ConnectionInfo) (s : OrchState)
    (hfail : ∀ k, (oracle k).connectOk = false) :
    mapGet (connectToDevice cfg oracle ci s).1.discoveryStatus (deviceId ci)
      = some ConnectionStatus.FAILED ∧
    (connectToDevice cfg oracle ci s).2.2 = ConnResult.connectionFailed ∧
    (connectToDevice cfg oracle ci s).2.1.countP isAttemptStartEv = cfg.maxRetries - 1 ∧
    (connectToDevice cfg oracle ci s).2.1.countP isConnectedEv = 0 ∧
    (connectToDevice cfg oracle ci s).1.devices = s.devices ∧
    (connectToDevice cfg oracle ci s).1.stateMapCallback = s.stateMapCallback := by
  unfold connectToDevice
  rw [attemptLoop_all_connectFail cfg oracle ci hfail (cfg.maxRetries - 1) 1 _]
  refine ⟨mapGet_mapSet_self _ _ _, rfl, ?_, ?_, rfl, rfl⟩
  · rw [List.countP_eq_length.mpr]
    · simp
    · intro e he
      rw [List.mem_map] at he
      obtain ⟨j, _, hj⟩ := he
      simp [← hj, isAttemptStartEv]
  · rw [List.countP_eq_zero]
    intro e he
    rw [List.mem_map] at he
    obtain ⟨j, _, hj⟩ := he
    simp [← hj, isConnectedEv]

/-- Witness for C3 at a concrete configuration and oracle. -/
theorem C3_transport_failure_witness :
    mapGet (connectToDevice cfgA oracleNoConn ciA initState).1.discoveryStatus (deviceId ciA)
      = some ConnectionStatus.FAILED ∧
    (connectToDevice cfgA oracleNoConn ciA initState).2.2 = ConnResult.connectionFailed ∧
    (connectToDevice cfgA oracleNoConn ciA initState).2.1.countP isAttemptStartEv
      = cfgA.maxRetries - 1 ∧
    (connectToDevice cfgA oracleNoConn ciA initState).2.1.countP isConnectedEv = 0 ∧
    (connectToDevice cfgA oracleNoConn ciA initState).1.devices = initState.devices ∧
    (connectToDevice cfgA oracleNoConn ciA initState).1.stateMapCallback
      = initState.stateMapCallback :=
  C3_transport_failure_exhausts cfgA oracleNoConn ciA initState (fun _ => rfl)

/-- Claim C4: when all attempts before k fail and attempt k succeeds with
1 ≤ k ≤ maxRetries − 1, exactly one connected event is emitted, the key ends
CONNECTED, and exactly one announcement-session pair is appended to the
deferred state-sync queue. -/
theorem C4_success_within_retries (cfg : StageLinqOptions) (oracle : Nat → AttemptSpec)
    (ci : ConnectionInfo) (s : OrchState) (k : Nat) (hk1 : 1 ≤ k)
    (hk2 : k ≤ cfg.maxRetries - 1)
    (hbefore : ∀ j, 1 ≤ j → j < k → attemptOk cfg ci (oracle j) = false)
    (hsucc : attemptOk cfg ci (oracle k) = true) :
    (connectToDevice cfg oracle ci s).2.1.countP isConnectedEv = 1 ∧
    mapGet (connectToDevice cfg oracle ci s).1.discoveryStatus (deviceId ci)
      = some ConnectionStatus.CONNECTED ∧
    (connectToDevice cfg oracle ci s).1.stateMapCallback = s.stateMapCallback ++ [(ci, k)] ∧
    (connectToDevice cfg oracle ci s).2.2 = ConnResult.ok := by
  unfold connectToDevice
  have hi : k - 1 < cfg.maxRetries - 1 := by omega
  obtain ⟨h1, h2, h3, h4⟩ := attemptLoop_first_success cfg oracle ci (k - 1)
    (cfg.maxRetries - 1) 1 _ hi
    (fun j hj => hbefore (1 + j) (by omega) (by omega))
    (by rw [show 1 + (k - 1) = k by omega]; exact hsucc)
  refine ⟨h1, ?_, ?_, h4⟩
  · rw [h2, mapGet_mapSet_self]
  · rw [h3, show 1 + (k - 1) = k by omega]

/-- Witness for C4: first attempt fails, second succeeds, with three retries
configured. -/
theorem C4_success_witness :
    (connectToDevice cfgA oracleSecond ciA initState).2.1.countP isConnectedEv = 1 ∧
    mapGet (connectToDevice cfgA oracleSecond ciA initState).1.discoveryStatus (deviceId ciA)
      = some ConnectionStatus.CONNECTED ∧
    (connectToDevice cfgA oracleSecond ciA initState).1.stateMapCallback
      = initState.stateMapCallback ++ [(ciA, 2)] ∧
    (connectToDevice cfgA oracleSecond ciA initState).2.2 = ConnResult.ok :=
  C4_success_within_retries cfgA oracleSecond ciA initState 2 (by omega) (by decide)
    (fun j hj1 hj2 => by
      have hj : j = 1 := by omega
      subst hj
      decide)
    (by decide)

/-- Claim C5: handleDevice is idempotent on settled keys: when the key is
already recorded with any status, handling the announcement again changes
nothing and emits nothing. -/
theorem C5_idempotent_on_settled (cfg : StageLinqOptions) (ci : ConnectionInfo)
    (oracle : Nat → AttemptSpec) (s : OrchState) (st : ConnectionStatus)
    (h : mapGet s.discoveryStatus (deviceId ci) = some st) :
    handleDevice cfg ci oracle s = (s, []) := by
  have hcond : ((mapGet s.discoveryStatus (deviceId ci)).isSome || isIgnored cfg ci) = true := by
    rw [h]
    simp
  unfold handleDevice
  rw [if_pos hcond]

/-- Witness for C5 at a concrete settled state. -/
theorem C5_idempotent_witness :
    handleDevice cfgA ciA oracleOk sWitness = (sWitness, []) :=
  C5_idempotent_on_settled cfgA ciA oracleOk sWitness ConnectionStatus.CONNECTED (by decide)

/-- Claim C6: tracker entries are monotone over any reachable execution: an
entry appears as CONNECTING when created, may settle to CONNECTED or FAILED,
and a settled entry never changes again, even across re-announcements. -/
theorem C6_status_monotonic :
    ∀ (cfg : StageLinqOptions) (inputs more : List Input) (key : List Char),
    (statusLe (mapGet (run cfg initState inputs).1.discoveryStatus key)
      (mapGet (run cfg (run cfg initState inputs).1 more).1.discoveryStatus key) = true)
    ∧ ∀ (i : Input) (st : ConnectionStatus),
        mapGet (run cfg initState inputs).1.discoveryStatus key = none →
        mapGet (step cfg (run cfg initState inputs).1 i).1.discoveryStatus key = some st →
        st = ConnectionStatus.CONNECTING := by
  intro cfg inputs more key
  have hinv := run_inv cfg inputs initState inv_init
  exact ⟨run_statusLe cfg more _ hinv key,
    fun i st h1 h2 => step_creation cfg _ i hinv key st h1 h2⟩

/-- Witness for C6 on a concrete trace: the fresh entry is CONNECTING and the
observed pair of states is ordered. -/
theorem C6_status_monotonic_witness :
    (statusLe (mapGet (run cfgA initState inputsW).1.discoveryStatus (deviceId ciA))
      (mapGet (run cfgA (run cfgA initState inputsW).1
        [Input.announce ciA oracleOk, Input.tick]).1.discoveryStatus (deviceId ciA)) = true)
    ∧ ConnectionStatus.CONNECTING = ConnectionStatus.CONNECTING :=
  ⟨(C6_status_monotonic cfgA inputsW [Input.announce ciA oracleOk, Input.tick]
      (deviceId ciA)).1,
   (C6_status_monotonic cfgA [] [] (deviceId ciA)).2
     (Input.announce ciA oracleOk) ConnectionStatus.CONNECTING (by decide) (by decide)⟩

/-- Claim C7 counterexample: a seventeen-byte token is not sixteen bytes long,
yet sourceId succeeds on it instead of failing as the claim states. -/
theorem C7_counterexample :
    tok17.length ≠ 16 ∧ (sourceId tok17).isSome = true := by
  decide

/-- Claim C7 amended: sourceId fails exactly on tokens shorter than sixteen
bytes; any token of at least sixteen bytes yields a 36-character id, a
sixteen-byte token yielding exactly the dash-grouping of its 32 hex digits;
and an announcement whose token is too short is not dropped immediately: its
attempts all fail, the key ends FAILED with no connected event. -/
theorem C7_sourceId_characterization (t : List Nat) :
    (sourceId t = none ↔ t.length < 16)
    ∧ (16 ≤ t.length → ∃ id, sourceId t = some id ∧ id.length = 36)
    ∧ (t.length = 16 →
        sourceId t = some ((tokenHex t).take 8 ++ '-' :: (((tokenHex t).drop 8).take 4
          ++ '-' :: (((tokenHex t).drop 12).take 4 ++ '-' :: (((tokenHex t).drop 16).take 4
          ++ '-' :: ((tokenHex t).drop 20).take 12)))))
    ∧ ∀ (cfg : StageLinqOptions) (oracle : Nat → AttemptSpec) (s : OrchState)
        (ci : ConnectionInfo), ci.token = t → t.length < 16 →
        mapGet (connectToDevice cfg oracle ci s).1.discoveryStatus (deviceId ci)
          = some ConnectionStatus.FAILED ∧
        (connectToDevice cfg oracle ci s).2.1.countP isConnectedEv = 0 := by
  refine ⟨sourceId_none_iff t, sourceId_some_length t, sourceId_sixteen t, ?_⟩
  intro cfg oracle s ci htok hlen
  have hok : ∀ j, attemptOk cfg ci (oracle j) = false := by
    intro j
    unfold attemptOk
    rw [htok, (sourceId_none_iff t).mpr hlen]
    simp
  unfold connectToDevice
  obtain ⟨h1, _, h3, _⟩ := attemptLoop_all_fail cfg oracle ci hok (cfg.maxRetries - 1) 1 _
  constructor
  · rw [h1, mapGet_mapSet_self]
  · rw [h3, List.countP_eq_zero]
    intro e he
    rw [List.mem_map] at he
    obtain ⟨j, _, hj⟩ := he
    simp [← hj, isConnectedEv]

/-- Witness for the amended C7 at concrete tokens. -/
theorem C7_sourceId_witness :
    sourceId ciShortTok.token = none
    ∧ (∃ id, sourceId tok17 = some id ∧ id.length = 36)
    ∧ sourceId tok16 = some ((tokenHex tok16).take 8 ++ '-' ::
        (((tokenHex tok16).drop 8).take 4 ++ '-' :: (((tokenHex tok16).drop 12).take 4
          ++ '-' :: (((tokenHex tok16).drop 16).take 4
          ++ '-' :: ((tokenHex tok16).drop 20).take 12))))
    ∧ (mapGet (connectToDevice cfgA oracleOk ciShortTok initState).1.discoveryStatus
        (deviceId ciShortTok) = some ConnectionStatus.FAILED ∧
       (connectToDevice cfgA oracleOk ciShortTok initState).2.1.countP isConnectedEv = 0) :=
  ⟨(C7_sourceId_characterization ciShortTok.token).1.mpr (by decide),
   (C7_sourceId_characterization tok17).2.1 (by decide),
   (C7_sourceId_characterization tok16).2.2.1 (by decide),
   (C7_sourceId_characterization ciShortTok.token).2.2.2 cfgA oracleOk initState
     ciShortTok rfl (by decide)⟩

/-- Claim C8 counterexample: two announcements agreeing on address and port but
differing in source and software name produce the same device key, refuting
collision-freedom. -/
theorem C8_counterexample :
    ciX.address = ciY.address ∧ ciX.port = ciY.port ∧ ciX.source ≠ ciY.source ∧
    ciX.softwareName ≠ ciY.softwareName ∧ deviceId ciX = deviceId ciY := by
  decide

/-- Claim C8 amended: deviceId is a pure function of the address, port, source
and software-name tuple, so identical tuples yield equal keys; collision
freedom holds for tuples whose address contains no colon and whose source
contains no slash, but not in general. -/
theorem C8_deviceId_characterization (A B : ConnectionInfo) :
    (A.address = B.address → A.port = B.port → A.source = B.source →
      A.softwareName = B.softwareName → deviceId A = deviceId B)
    ∧ (':' ∉ A.address → ':' ∉ B.address → '/' ∉ A.source → '/' ∉ B.source →
        deviceId A = deviceId B →
        A.address = B.address ∧ A.port = B.port ∧ A.source = B.source ∧
          A.softwareName = B.softwareName) :=
  ⟨fun h1 h2 h3 h4 => deviceId_deterministic A B h1 h2 h3 h4,
   fun hA hB hsA hsB h => deviceId_inj A B hA hB hsA hsB h⟩

/-- Witness for the amended C8 at concrete announcements. -/
theorem C8_deviceId_witness :
    deviceId ciA = deviceId ciA ∧
    (ciA.address = ciA.address ∧ ciA.port = ciA.port ∧ ciA.source = ciA.source ∧
      ciA.softwareName = ciA.softwareName) :=
  ⟨(C8_deviceId_characterization ciA ciA).1 rfl rfl rfl rfl,
   (C8_deviceId_characterization ciA ciA).2 (by decide) (by decide) (by decide) (by decide)
     rfl⟩

/-- Claim C9: downloadFile on a registry key that is absent, including any bare
token-derived id, since the registry keys sessions only under net:// plus the
id, dereferences the missing entry and fails before any file-transfer
interaction. -/
theorem C9_downloadFile_missing_key :
    (∀ (s : OrchState) (g : List Char → List Nat) (dk path : List Char),
      mapGet s.devices dk = none →
      downloadFile s g dk path = (DownloadResult.derefError, []))
    ∧ ∀ (cfg : StageLinqOptions) (inputs : List Input) (t : List Nat) (id : List Char)
        (g : List Char → List Nat) (path : List Char),
        sourceId t = some id →
        mapGet (run cfg initState inputs).1.devices id = none ∧
        downloadFile (run cfg initState inputs).1 g id path
          = (DownloadResult.derefError, []) := by
  refine ⟨fun s g dk path h => downloadFile_absent s g dk path h, ?_⟩
  intro cfg inputs t id g path hid
  have hnet := run_devices_net cfg inputs initState
    (fun q hq => absurd hq (List.not_mem_nil q))
  obtain ⟨c, rest, hidc, hcn⟩ := sourceId_head t id hid
  have habs : mapGet (run cfg initState inputs).1.devices id = none := by
    apply mapGet_eq_none
    intro p hp
    obtain ⟨sid, hsid⟩ := hnet p hp
    rw [hsid, hidc]
    intro heq
    have heq' : 'n' :: ("et://".toList ++ sid) = c :: rest := heq
    injection heq' with hhead _
    exact hcn hhead.symm
  exact ⟨habs, downloadFile_absent _ g id path habs⟩

/-- Witness for C9: after a successful connection the registry is non-empty,
yet the bare token-derived id is absent and downloadFile fails on it without
any file-transfer interaction. -/
theorem C9_downloadFile_witness :
    (run cfgA initState inputsW).1.devices ≠ [] ∧
    mapGet (run cfgA initState inputsW).1.devices idA = none ∧
    downloadFile (run cfgA initState inputsW).1 gZero idA pathX
      = (DownloadResult.derefError, []) :=
  ⟨by decide,
   (C9_downloadFile_missing_key.2 cfgA inputsW tok16 idA gZero pathX (by decide)).1,
   (C9_downloadFile_missing_key.2 cfgA inputsW tok16 idA gZero pathX (by decide)).2⟩

/-- Claim C10: with maxRetries equal to one, the retry loop body never runs: no
attempt is started, the key is marked CONNECTING and then immediately FAILED,
no event is emitted, and the terminal ConnectionFailed error is raised. -/
theorem C10_single_retry_budget (cfg : StageLinqOptions) (oracle : Nat → AttemptSpec)
    (ci : ConnectionInfo) (s : OrchState) (h : cfg.maxRetries = 1) :
    connectToDevice cfg oracle ci s =
      ({ s with discoveryStatus :=
          (mapSet (mapSet s.discoveryStatus (deviceId ci) ConnectionStatus.CONNECTING)
            (deviceId ci) ConnectionStatus.FAILED) },
       [], ConnResult.connectionFailed) := by
  unfold connectToDevice
  rw [h]
  rfl

/-- Witness for C10 at a concrete single-retry configuration. -/
theorem C10_single_retry_witness :
    connectToDevice cfgOne oracleOk ciA initState =
      ({ initState with discoveryStatus :=
          (mapSet (mapSet initState.discoveryStatus (deviceId ciA) ConnectionStatus.CONNECTING)
            (deviceId ciA) ConnectionStatus.FAILED) },
       [], ConnResult.connectionFailed) :=
  C10_single_retry_budget cfgOne oracleOk ciA initState rfl

end StageLinqProof
